import Mathlib

/-!
Verification development for the sports-tracker repository.

This file gives a shallow embedding of the two core subsystems:

* the identity-continuity tracker (`src/ml/player_tracker.py`, class
  `_SimpleTracker` and the per-frame multi-subject loop of
  `PlayerTracker.get_all_frames_bboxes`), and
* the temporal event-detection engine (`src/ml/event_detector.py`:
  `detect_jumps`, `detect_contacts`, `detect_body_collapse`,
  `detect_post_impact_stillness`).

Numerical conventions of the embedding:

* Python/numpy float64 arithmetic is idealised as exact ordered-field
  arithmetic.  Functions that never take a square root are stated over an
  arbitrary `LinearOrderedField` (so they are executable over `ℚ`);
  functions that use `np.sqrt` / `np.linalg.norm` / `np.std` are stated
  over `ℝ` with `Real.sqrt`.
* Python `int(x)` is truncation toward zero (`pyInt`); `round(x, n)` is
  round-half-to-even at `n` decimal digits (`pyRound`).
* numpy array indexing out of range never occurs on the executed paths of
  the source; the embedding uses a 0-defaulted lookup (`getE`/`getZ`) in
  those positions.
-/

section NumpyPrelims

variable {α : Type*} [LinearOrderedField α]

/-- Zero-defaulted list lookup at a natural index (models in-range numpy
indexing; out-of-range positions are never hit on the executed paths). -/
def getE [Zero β] (l : List β) (i : ℕ) : β := l.getD i 0

/-- Zero-defaulted list lookup at an integer index (used where convolution
windows run past the ends of the array, matching numpy zero padding). -/
def getZ [Zero β] (l : List β) (i : ℤ) : β :=
  if 0 ≤ i then getE l i.toNat else 0

/-- Arithmetic mean, `np.mean`.  (Empty input never occurs on executed
paths; division by a zero length returns 0.) -/
def mean (l : List α) : α := l.sum / (l.length : α)

/-- Minimum of a list, `np.min` (0 on the empty list, which the source
never passes). -/
def minD (l : List α) : α :=
  match l with
  | [] => 0
  | a :: t => t.foldl min a

/-- Helper for `idxMaxFirst`: running first-maximum scan. -/
def idxMaxGo (bi : ℕ) (bv : α) (i : ℕ) : List α → ℕ
  | [] => bi
  | v :: t => if bv < v then idxMaxGo i v (i + 1) t else idxMaxGo bi bv (i + 1) t

/-- Index of the first occurrence of the maximum, `np.argmax` (0 on the
empty list). -/
def idxMaxFirst : List α → ℕ
  | [] => 0
  | a :: t => idxMaxGo 0 a 1 t

/-- Insert into a sorted list, keeping stability. -/
def insertSorted (le : β → β → Bool) (a : β) : List β → List β
  | [] => [a]
  | b :: t => if le a b then a :: b :: t else b :: insertSorted le a t

/-- Stable insertion sort (the sorting algorithm itself is irrelevant to
the source, which calls library sorts; only the sorted result matters). -/
def insertionSortBy (le : β → β → Bool) : List β → List β
  | [] => []
  | a :: t => insertSorted le a (insertionSortBy le t)

/-- Ascending sort of field elements. -/
def sortAsc (l : List α) : List α :=
  insertionSortBy (fun a b => decide (a ≤ b)) l

/-- Python `sorted(set(...))` on naturals: ascending order, duplicates
removed. -/
def sortedDedupN (l : List ℕ) : List ℕ :=
  (insertionSortBy (fun a b => decide (a ≤ b)) l).dedup

/-- Median, `np.median`: middle element of the sorted list, or the average
of the two middle elements for even length. -/
def median (l : List α) : α :=
  let s := sortAsc l
  let n := l.length
  if n = 0 then 0
  else if n % 2 = 1 then getE s (n / 2)
  else (getE s (n / 2 - 1) + getE s (n / 2)) / 2

/-- Percentile with linear interpolation, `np.percentile(l, q)`. -/
def percentileQ (l : List α) (q : ℚ) : α :=
  let s := sortAsc l
  let n := l.length
  if n = 0 then 0 else
  let pos : ℚ := q * ((n : ℚ) - 1) / 100
  let i0 : ℕ := (Rat.floor pos).toNat
  let g : ℚ := pos - Rat.floor pos
  if i0 + 1 < n then getE s i0 + (g : α) * (getE s (i0 + 1) - getE s i0)
  else getE s i0

/-- Round to the nearest integer, ties to even (Python banker rounding). -/
def roundHalfEven [FloorRing α] (x : α) : ℤ :=
  let f := ⌊x⌋
  let r := x - (f : α)
  if r < 1 / 2 then f
  else if 1 / 2 < r then f + 1
  else if f % 2 = 0 then f else f + 1

/-- Python `round(x, n)`: round to `n` decimal places, ties to even. -/
def pyRound [FloorRing α] (x : α) (n : ℕ) : α :=
  ((roundHalfEven (x * (10 : α) ^ n) : ℤ) : α) / (10 : α) ^ n

/-- Python `int(x)`: truncation toward zero. -/
def pyInt [FloorRing α] (x : α) : ℤ :=
  if x < 0 then -⌊-x⌋ else ⌊x⌋

/-- Python `int(x)` coerced to a natural (the source only truncates
nonnegative quantities where this is used). -/
def pyIntN [FloorRing α] (x : α) : ℕ := (pyInt x).toNat

/-- Centered moving average: `np.convolve(x, np.ones(k)/k, mode="same")`.
Numpy returns the middle `max(len(x), k)` entries of the full
convolution, starting at full-convolution offset `(min(len(x), k) - 1) / 2`;
with the uniform kernel every entry is a zero-padded window sum divided
by `k`.  When the kernel is longer than the signal the output is longer
than the input. -/
def convSame (x : List α) (k : ℕ) : List α :=
  (List.range (max x.length k)).map (fun (i : ℕ) =>
    (((List.range k).map (fun (t : ℕ) =>
      getZ x ((i : ℤ) + (((min x.length k - 1) / 2 : ℕ) : ℤ) - (t : ℤ)))).sum) / (k : α))

/-- Scan forward from `j` past a plateau of value `v`, stopping at the
first differing sample or at index `length - 1` (scipy
`_local_maxima_1d` inner loop). -/
def iAheadGo (x : List α) (v : α) (j : ℕ) : ℕ :=
  if h : j < x.length - 1 ∧ getE x j = v then iAheadGo x v (j + 1) else j
termination_by x.length - j
decreasing_by omega

/-- Strict local maxima with plateau midpoints, scipy
`_local_maxima_1d`: a rise at `l` followed (after a possible plateau) by
a fall yields the plateau midpoint. -/
def localMaxima (x : List α) : List ℕ :=
  (List.range x.length).filterMap (fun l =>
    if 1 ≤ l ∧ l < x.length - 1 ∧ getE x (l - 1) < getE x l then
      let ia := iAheadGo x (getE x l) (l + 1)
      if getE x ia < getE x l then some ((l + ia - 1) / 2) else none
    else none)

/-- Greedy peak thinning by minimum distance, scipy
`_select_by_peak_distance`: peaks are visited in decreasing height order
and closer-than-`d` neighbours of every kept peak are discarded.  Ties in
height are visited in a fixed index order (numpy argsort order on ties is
implementation-defined; no claim below depends on it). -/
def selectByPeakDistance (x : List α) (peaks : List ℕ) (d : ℕ) : List ℕ :=
  let n := peaks.length
  let prio : List α := peaks.map (fun p => getE x p)
  let ordAsc : List ℕ := insertionSortBy
    (fun a b => decide (getE prio a < getE prio b) ||
      (decide (getE prio a = getE prio b) && decide (a ≤ b)))
    (List.range n)
  let keepF : List Bool := ordAsc.reverse.foldl (fun keep j =>
    if keep.getD j false then
      keep.mapIdx (fun k b =>
        if k ≠ j ∧ (((peaks.getD j 0 : ℤ) - (peaks.getD k 0 : ℤ)).natAbs < d) then false else b)
    else keep) (List.replicate n true)
  (peaks.enum.filter (fun q => keepF.getD q.1 false)).map (fun q => q.2)

/-- Running minimum over a prefix while samples stay at or below `v`
(scipy `_peak_prominences` base search). -/
def scanMinWhileLE (v : α) : List α → α → α
  | [], acc => acc
  | a :: t, acc => if v < a then acc else scanMinWhileLE v t (min acc a)

/-- Left base minimum of a peak for prominence computation. -/
def promLeftMin (x : List α) (p : ℕ) : α :=
  scanMinWhileLE (getE x p) ((x.take p).reverse) (getE x p)

/-- Right base minimum of a peak for prominence computation. -/
def promRightMin (x : List α) (p : ℕ) : α :=
  scanMinWhileLE (getE x p) (x.drop (p + 1)) (getE x p)

/-- Prominence of a peak, scipy `_peak_prominences` with unbounded
window. -/
def prominenceAt (x : List α) (p : ℕ) : α :=
  getE x p - max (promLeftMin x p) (promRightMin x p)

/-- `scipy.signal.find_peaks(x, prominence=minProm, distance=dist)`:
local maxima, then the distance filter, then the prominence filter (the
order scipy applies the conditions in). -/
def findPeaksPD (x : List α) (minProm : α) (dist : ℕ) : List ℕ :=
  let p0 := localMaxima x
  let p1 := selectByPeakDistance x p0 dist
  p1.filter (fun p => decide (minProm ≤ prominenceAt x p))

/-- `scipy.signal.find_peaks(x, height=hmin, distance=dist)`: local
maxima, then the height filter, then the distance filter. -/
def findPeaksHD (x : List α) (hmin : α) (dist : ℕ) : List ℕ :=
  let p0 := (localMaxima x).filter (fun p => decide (hmin ≤ getE x p))
  selectByPeakDistance x p0 dist

end NumpyPrelims

/-! ## Event detection engine (`src/ml/event_detector.py`) -/

section EventDetector

variable {α : Type*} [LinearOrderedField α]

/-- A keypoint frame: landmark index to the (x, y) plane of the landmark
(the source only ever reads `kp[idx][:2]`; a total function models the
fixed 33-point schema). -/
def KFrame (α : Type*) : Type _ := ℕ → α × α

/-- `_midpoint(kp, a, b)`: midpoint of two landmarks in the (x, y)
plane. -/
def midpointKF (f : KFrame α) (a b : ℕ) : α × α :=
  (((f a).1 + (f b).1) / 2, ((f a).2 + (f b).2) / 2)

/-- Hip-midpoint y coordinate (`LEFT_HIP, RIGHT_HIP = 23, 24`). -/
def hipYOf (f : KFrame α) : α := (midpointKF f 23 24).2

/-- Center of mass of one frame: hip midpoint
(`compute_center_of_mass`). -/
def com (f : KFrame α) : α × α := midpointKF f 23 24

/-- Shoulder-midpoint y coordinate
(`LEFT_SHOULDER, RIGHT_SHOULDER = 11, 12`). -/
def shoulderYOf (f : KFrame α) : α := (midpointKF f 11 12).2

/-- Jump event record emitted by `detect_jumps`. -/
structure JumpEvent (α : Type*) where
  frame_seq_idx : ℕ
  timestamp : α
  jump_height_norm : α
  landing_seq_idx : ℕ
  landing_timestamp : α
  deriving Repr

/-- The smoothing kernel width of `detect_jumps`:
`max(5, int(effective_fps * 0.15))`, bumped to the next odd number. -/
def jumpKernel [FloorRing α] (effective_fps : α) : ℕ :=
  let k0 := max 5 (pyIntN (effective_fps * 0.15))
  if k0 % 2 = 0 then k0 + 1 else k0

/-- `detect_jumps(keypoints_sequence, effective_fps, min_jump_height,
min_prominence)`: smooth the hip height, find peaks of the inverted
signal, filter by height above the median baseline, and locate the
landing as the maximum-recovery index within one second. -/
def detectJumps [FloorRing α] (kp : List (KFrame α)) (effective_fps minJumpHeight minProminence : α) :
    ℕ × List (JumpEvent α) :=
  if kp.length < 5 then (0, []) else
  let hipY := kp.map hipYOf
  let kernelSize := jumpKernel effective_fps
  let hipYSmooth := convSame hipY kernelSize
  let inverted := hipYSmooth.map (fun v => -v)
  let minDistance := max 5 (pyIntN (effective_fps * 0.35))
  let peaks := findPeaksPD inverted minProminence minDistance
  let baseline := median hipYSmooth
  let jumpEvents := peaks.filterMap (fun peakIdx =>
    let jumpHeight := baseline - getE hipYSmooth peakIdx
    if jumpHeight < minJumpHeight then none else
    let searchEnd := min (peakIdx + pyIntN (effective_fps * 1.0)) hipYSmooth.length
    let segment := (hipYSmooth.drop peakIdx).take (searchEnd - peakIdx)
    let landingIdx := peakIdx + (if 1 < segment.length then idxMaxFirst segment else 0)
    some ⟨peakIdx, pyRound ((peakIdx : α) / effective_fps) 3, pyRound jumpHeight 4,
      landingIdx, pyRound ((landingIdx : α) / effective_fps) 3⟩)
  (jumpEvents.length, jumpEvents)

/-- Consecutive differences, `np.diff`. -/
def diffL [Sub β] (l : List β) : List β :=
  (l.zip l.tail).map (fun q => q.2 - q.1)

/-- Euclidean norm of a 2-vector, `np.linalg.norm`. -/
noncomputable def vnorm (v : ℝ × ℝ) : ℝ := Real.sqrt (v.1 ^ 2 + v.2 ^ 2)

/-- Population standard deviation, `np.std`. -/
noncomputable def stdDev (l : List ℝ) : ℝ :=
  Real.sqrt (mean (l.map (fun v => (v - mean l) ^ 2)))

/-- Center-of-mass speeds: norms of consecutive COM differences divided
by the frame interval (shared by `detect_contacts` and
`detect_post_impact_stillness`). -/
noncomputable def comSpeeds (kp : List (KFrame ℝ)) (effective_fps : ℝ) : List ℝ :=
  let coms := kp.map com
  let dt := 1 / effective_fps
  (diffL coms).map (fun v => vnorm v / dt)

/-- Contact event record emitted by `detect_contacts`. -/
structure ContactEvent where
  frame_seq_idx : ℕ
  timestamp : ℝ
  deceleration : ℝ
  jerk : ℝ
  severity : String

/-- Greedy merge of an ascending peak list with a minimum gap
(`detect_contacts` merge loop). -/
def greedyMerge (minGap : ℕ) (l : List ℕ) : List ℕ :=
  l.foldl (fun merged p =>
    match merged.getLast? with
    | none => merged ++ [p]
    | some q => if minGap ≤ p - q then merged ++ [p] else merged) []

/-- `detect_contacts(keypoints_sequence, effective_fps,
decel_threshold)`: adaptive thresholds on |jerk| and |acceleration| of
the COM speed, floored by absolute minima, peak-found, merged, and
banded into severities. -/
noncomputable def detectContacts (kp : List (KFrame ℝ)) (effective_fps : ℝ)
    (decelThresholdArg : Option ℝ) : ℕ × List ContactEvent :=
  let coms := kp.map com
  if coms.length < 4 then (0, []) else
  let dt := 1 / effective_fps
  let speeds := (diffL coms).map (fun v => vnorm v / dt)
  if speeds.length < 3 then (0, []) else
  let accel := (diffL speeds).map (fun a => a / dt)
  let jerk := (diffL accel).map (fun a => a / dt)
  let absJerk := jerk.map (fun v => |v|)
  let absAccel := accel.map (fun v => |v|)
  let decelThreshold0 := match decelThresholdArg with
    | some v => v
    | none => mean absJerk + 2.5 * stdDev absJerk
  let accelThreshold0 := mean absAccel + 2.5 * stdDev absAccel
  let minJerkThreshold : ℝ := 8.0
  let minAccelThreshold : ℝ := 3.0
  let decelThreshold := max decelThreshold0 minJerkThreshold
  let accelThreshold := max accelThreshold0 minAccelThreshold
  let minGap := max 4 (pyIntN (effective_fps * 0.5))
  let jerkPeaks := findPeaksHD absJerk decelThreshold minGap
  let decelPeaks := findPeaksHD absAccel accelThreshold minGap
  let allPeaks := sortedDedupN (jerkPeaks ++ decelPeaks.map (fun p => p + 1))
  let merged := greedyMerge minGap allPeaks
  let contactEvents := merged.filterMap (fun idx =>
    let jerkVal := if idx < absJerk.length then getE absJerk idx else 0
    let accelVal := getE absAccel (min idx (absAccel.length - 1))
    if jerkVal < minJerkThreshold * 0.5 ∧ accelVal < minAccelThreshold * 0.5 then none else
    let severity :=
      if decelThreshold * 1.8 < jerkVal ∨ accelThreshold * 1.8 < accelVal then "high"
      else if decelThreshold * 1.2 < jerkVal ∨ accelThreshold * 1.2 < accelVal then "medium"
      else "low"
    some ⟨idx, pyRound ((idx : ℝ) / effective_fps) 3, pyRound accelVal 2,
      pyRound jerkVal 2, severity⟩)
  (contactEvents.length, contactEvents)

/-- Collapse event record emitted by `detect_body_collapse`. -/
structure CollapseEvent (α : Type*) where
  frame_seq_idx : ℕ
  timestamp : α
  fall_rate : α
  drop_amount : α
  stayed_down : Bool
  stayed_down_ratio : α
  body_height_ratio : α
  severity : String
  type : String

/-- Main scan loop of `detect_body_collapse`: advance by one frame, or
skip past a confirmed collapse.  The skip step is written
`max (i + 1) (i + stayDown + minGap)`, equal to the source's
`i += stay_down_window + min_gap` since `stay_down_window ≥ 5` at every
call site (the `max` only guarantees termination for degenerate
parameters). -/
def collapseLoop [FloorRing α] (sh bh : List α) (effective_fps standingHeight standingShoulder minDrop : α)
    (dropWindow stayDown minGap : ℕ) (i : ℕ) : List (CollapseEvent α) :=
  if _h : i < sh.length - stayDown then
    let preShoulder := minD ((sh.drop (i - dropWindow * 2)).take ((i - dropWindow + 1) - (i - dropWindow * 2)))
    let currentShoulder := getE sh i
    let drop := currentShoulder - preShoulder
    if drop < minDrop then
      collapseLoop sh bh effective_fps standingHeight standingShoulder minDrop dropWindow stayDown minGap (i + 1)
    else if currentShoulder < standingShoulder + minDrop * 0.5 then
      collapseLoop sh bh effective_fps standingHeight standingShoulder minDrop dropWindow stayDown minGap (i + 1)
    else
      let postSegment := (sh.drop i).take stayDown
      let tolerance := standingHeight * 0.08
      let stayedDownCount := postSegment.countP (fun v => decide (currentShoulder - tolerance ≤ v))
      let stayedDownRatio := (stayedDownCount : α) / (postSegment.length : α)
      if stayedDownRatio < 0.75 then
        collapseLoop sh bh effective_fps standingHeight standingShoulder minDrop dropWindow stayDown minGap (i + 1)
      else
        let postBodyHeight := mean ((bh.drop i).take stayDown)
        let heightRatio := postBodyHeight / (standingHeight + 1e-6)
        if 0.85 < heightRatio then
          collapseLoop sh bh effective_fps standingHeight standingShoulder minDrop dropWindow stayDown minGap (i + 1)
        else
          let severity := if minDrop * 2 < drop ∧ 0.9 < stayedDownRatio then "critical" else "high"
          ⟨i, pyRound ((i : α) / effective_fps) 3,
            pyRound (drop / ((dropWindow : α) / effective_fps)) 4, pyRound drop 4, true,
            pyRound stayedDownRatio 2, pyRound heightRatio 2, severity, "collapse"⟩ ::
          collapseLoop sh bh effective_fps standingHeight standingShoulder minDrop dropWindow stayDown minGap
            (max (i + 1) (i + stayDown + minGap))
  else []
termination_by sh.length - i
decreasing_by all_goals omega

/-- `detect_body_collapse(keypoints_sequence, effective_fps)`: smoothed
shoulder and hip heights, a 25th-percentile standing baseline, and the
rapid-drop / stay-down / body-compression confirmation scan. -/
def detectBodyCollapse [FloorRing α] (kp : List (KFrame α)) (effective_fps : α) :
    List (CollapseEvent α) :=
  if kp.length < pyIntN (effective_fps * 2.5) then [] else
  let shoulderY0 := kp.map shoulderYOf
  let hipY0 := kp.map hipYOf
  let sw0 := max 7 (pyIntN (effective_fps * 0.4))
  let smoothWindow := if sw0 % 2 = 0 then sw0 + 1 else sw0
  let shoulderY := convSame shoulderY0 smoothWindow
  let hipY := convSame hipY0 smoothWindow
  let bodyHeight := (shoulderY.zip hipY).map (fun q => |q.1 - q.2|)
  let standingHeight := percentileQ bodyHeight 25
  if standingHeight < 0.02 then [] else
  let standingShoulder := percentileQ shoulderY 25
  let minDrop := max (standingHeight * 0.15) 0.06
  let dropWindow := max 3 (pyIntN (effective_fps * 0.5))
  let stayDownWindow := max 5 (pyIntN (effective_fps * 1.5))
  let minGap := max 5 (pyIntN (effective_fps * 3.0))
  collapseLoop shoulderY bodyHeight effective_fps standingHeight standingShoulder minDrop
    dropWindow stayDownWindow minGap dropWindow

/-- Stillness event record emitted by `detect_post_impact_stillness`. -/
structure StillnessEvent where
  frame_seq_idx : ℕ
  timestamp : ℝ
  duration_seconds : ℝ
  still_ratio : ℝ
  avg_speed_post_impact : ℝ
  related_contact_timestamp : ℝ
  severity : String
  type : String

/-- Per-contact body of `detect_post_impact_stillness`: evaluates one
contact event against the post-impact speed window (skipping any
non-high-severity contact). -/
noncomputable def stillnessBody (speeds : List ℝ) (effective_fps stillnessThreshold : ℝ)
    (ce : ContactEvent) : Option StillnessEvent :=
  if ce.severity ≠ "high" then none else
  let impactIdx := ce.frame_seq_idx
  let start := impactIdx + max 1 (pyIntN (effective_fps * 0.5))
  let stop := min (impactIdx + pyIntN (effective_fps * 3.0)) speeds.length
  if stop ≤ start ∨ stop - start < max 5 (pyIntN (effective_fps * 1.0)) then none else
  let postSpeeds := (speeds.drop start).take (stop - start)
  let avgPostSpeed := mean postSpeeds
  let stillFrames := postSpeeds.countP (fun v => decide (v < stillnessThreshold))
  let stillRatio := (stillFrames : ℝ) / (postSpeeds.length : ℝ)
  if 0.80 < stillRatio ∧ avgPostSpeed < stillnessThreshold * 1.5 then
    some ⟨start, pyRound ((start : ℝ) / effective_fps) 3,
      pyRound (((stop - start : ℕ) : ℝ) / effective_fps) 2, pyRound stillRatio 2,
      pyRound avgPostSpeed 4, ce.timestamp,
      (if 0.95 < stillRatio then "critical" else "high"), "post_impact_stillness"⟩
  else none

/-- `detect_post_impact_stillness(keypoints_sequence, effective_fps,
contact_events)`: for each high-severity contact, test whether the COM
speed stays below a stillness threshold in a window after the impact. -/
noncomputable def detectPostImpactStillness (kp : List (KFrame ℝ)) (effective_fps : ℝ)
    (contactEvents : List ContactEvent) : List StillnessEvent :=
  if contactEvents.length = 0 ∨ kp.length < 5 then [] else
  let coms := kp.map com
  let dt := 1 / effective_fps
  let speeds := if 1 < coms.length then (diffL coms).map (fun v => vnorm v / dt) else []
  if speeds.length = 0 then [] else
  let baselineSpeed := percentileQ speeds 75
  if baselineSpeed < 0.01 then [] else
  let stillnessThreshold := max (baselineSpeed * 0.05) 0.003
  contactEvents.filterMap (stillnessBody speeds effective_fps stillnessThreshold)

end EventDetector

/-! ## Identity continuity tracker (`src/ml/player_tracker.py`) -/

section Tracker

/-- An axis-aligned bounding box with integer pixel coordinates (the
source converts every detector box with `astype(int)` before use, so
detections enter `_SimpleTracker.update` already quantised). -/
structure Box where
  x1 : ℤ
  y1 : ℤ
  x2 : ℤ
  y2 : ℤ
  deriving DecidableEq, Repr

/-- One upstream detection: a YOLO track identifier with its box
(`track_ids[i]`, `boxes_xyxy[i]`). -/
structure Det where
  id : ℤ
  box : Box
  deriving DecidableEq, Repr

/-- Box width (`_bbox_size`, first component). -/
def boxW (b : Box) : ℤ := b.x2 - b.x1

/-- Box height (`_bbox_size`, second component). -/
def boxH (b : Box) : ℤ := b.y2 - b.y1

/-- Box center (`_center`). -/
noncomputable def centerB (b : Box) : ℝ × ℝ := (((b.x1 + b.x2 : ℤ) : ℝ) / 2, ((b.y1 + b.y2 : ℤ) : ℝ) / 2)

/-- Center distance between two boxes (`_center_dist`). -/
noncomputable def centerDist (b1 b2 : Box) : ℝ :=
  Real.sqrt (((centerB b1).1 - (centerB b2).1) ^ 2 + ((centerB b1).2 - (centerB b2).2) ^ 2)

/-- Horizontal gap between two boxes (`_edge_dist`, `dx`). -/
def edgeDx (b1 b2 : Box) : ℤ := max 0 (max b1.x1 b2.x1 - min b1.x2 b2.x2)

/-- Vertical gap between two boxes (`_edge_dist`, `dy`). -/
def edgeDy (b1 b2 : Box) : ℤ := max 0 (max b1.y1 b2.y1 - min b1.y2 b2.y2)

/-- Minimum distance between box edges (`_edge_dist`): 0 when they
overlap. -/
noncomputable def edgeDist (b1 b2 : Box) : ℝ :=
  Real.sqrt (((edgeDx b1 b2 : ℤ) : ℝ) ^ 2 + ((edgeDy b1 b2 : ℤ) : ℝ) ^ 2)

/-- Intersection-over-union of two boxes (`_iou`). -/
noncomputable def iouB (b1 b2 : Box) : ℝ :=
  let x1 := max b1.x1 b2.x1
  let y1 := max b1.y1 b2.y1
  let x2 := min b1.x2 b2.x2
  let y2 := min b1.y2 b2.y2
  if x2 ≤ x1 ∨ y2 ≤ y1 then 0 else
  let inter := (x2 - x1) * (y2 - y1)
  let a1 := (b1.x2 - b1.x1) * (b1.y2 - b1.y1)
  let a2 := (b2.x2 - b2.x1) * (b2.y2 - b2.y1)
  if 0 < a1 + a2 - inter then ((inter : ℤ) : ℝ) / ((a1 + a2 - inter : ℤ) : ℝ) else 0

/-- Frame diagonal `np.sqrt(frame_w ** 2 + frame_h ** 2)`. -/
noncomputable def diagWH (w h : ℕ) : ℝ := Real.sqrt ((w : ℝ) ^ 2 + (h : ℝ) ^ 2)

/-- Mutable state of one `_SimpleTracker` instance. -/
structure TState where
  current_id : ℤ
  last_bbox : Option Box
  frames_lost : ℕ
  avg_w : ℝ
  avg_h : ℝ
  pending_id : Option ℤ
  pending_bbox : Option Box
  pending_count : ℕ

/-- Grace period before spatial fallback (`self._grace_frames = 4`). -/
def graceFrames : ℕ := 4

/-- Confirmation frames required to commit a pending identifier
(`self._pending_needed = 2`). -/
def pendingNeeded : ℕ := 2

/-- `_SimpleTracker.__init__(track_id, bbox)`. -/
def initTState (trackId : ℤ) (bbox : Option Box) : TState :=
  { current_id := trackId
    last_bbox := bbox
    frames_lost := 0
    avg_w := match bbox with | some b => (boxW b : ℝ) | none => 60
    avg_h := match bbox with | some b => (boxH b : ℝ) | none => 120
    pending_id := none
    pending_bbox := none
    pending_count := 0 }

/-- `_SimpleTracker._accept(box, tid)`: commit a box and identifier,
reset the lost counter, exponentially smooth the size estimate
(`alpha = 0.15`). -/
noncomputable def accept (s : TState) (b : Box) (tid : ℤ) : TState :=
  { s with
    last_bbox := some b
    current_id := tid
    frames_lost := 0
    avg_w := s.avg_w * (1 - 0.15) + (boxW b : ℝ) * 0.15
    avg_h := s.avg_h * (1 - 0.15) + (boxH b : ℝ) * 0.15 }

/-- Step 1 candidate test: same identifier as `current_id`, not claimed
by a sibling, and (when a previous box exists) center distance at most
25% of the frame diagonal. -/
noncomputable def step1Pred (s : TState) (w h : ℕ) (excl : List ℤ) (d : Det) : Bool :=
  d.id == s.current_id && !(excl.contains d.id) &&
    (match s.last_bbox with
     | none => true
     | some lb => !(decide (diagWH w h * 0.25 < centerDist lb d.box)))

/-- Step 1 of `update`: first detection carrying the current identifier
within the plausibility distance. -/
noncomputable def step1Find (s : TState) (dets : List Det) (w h : ℕ) (excl : List ℤ) : Option Det :=
  dets.find? (step1Pred s w h excl)

/-- Step 1b candidate test: the pending identifier, not claimed by a
sibling, and (when a pending box exists) center distance at most 15% of
the frame diagonal from it. -/
noncomputable def pendingPred (s : TState) (pid : ℤ) (w h : ℕ) (excl : List ℤ) (d : Det) : Bool :=
  d.id == pid && !(excl.contains d.id) &&
    (match s.pending_bbox with
     | none => true
     | some pb => !(decide (diagWH w h * 0.15 < centerDist pb d.box)))

/-- Step 1b of `update`: first detection confirming the pending
identifier. -/
noncomputable def pendingFind (s : TState) (pid : ℤ) (dets : List Det) (w h : ℕ)
    (excl : List ℤ) : Option Det :=
  dets.find? (pendingPred s pid w h excl)

/-- Spatial-fallback admissibility: not claimed, within the allowed
distance (minimum of center and edge distance), and with a plausible
area ratio against the running size estimate. -/
noncomputable def candAdmissible (s : TState) (excl : List ℤ) (maxDist : ℝ) (lb : Box)
    (d : Det) : Bool :=
  !(excl.contains d.id) &&
  !(decide (maxDist < min (centerDist lb d.box) (edgeDist lb d.box))) &&
  (!(decide (0 < s.avg_w)) ||
    (let areaRatio := ((boxW d.box * boxH d.box : ℤ) : ℝ) / (s.avg_w * s.avg_h + 1e-6)
     !(decide (areaRatio < 0.2)) && !(decide (5.0 < areaRatio))))

/-- Spatial-fallback composite score
`iou * 0.5 + edge_score * 0.3 + center_score * 0.2`. -/
noncomputable def candScore (maxDist : ℝ) (lb : Box) (b : Box) : ℝ :=
  iouB lb b * 0.5 + max 0 (1 - edgeDist lb b / maxDist) * 0.3 +
    max 0 (1 - centerDist lb b / maxDist) * 0.2

/-- Best spatial-fallback candidate: the loop over detections keeping the
strictly highest score, starting from `best_score = -1`. -/
noncomputable def bestCandidate (s : TState) (dets : List Det) (excl : List ℤ) (maxDist : ℝ)
    (lb : Box) : Option Det × ℝ :=
  dets.foldl (fun acc d =>
    if candAdmissible s excl maxDist lb d then
      let sc := candScore maxDist lb d.box
      if acc.2 < sc then (some d, sc) else acc
    else acc) (none, -1)

/-- Step 3 of `update`: spatial fallback (source lines 161-226).  Not
reachable before the grace period expires; disabled once `frames_lost`
reaches `max_lost` or when no previous box exists. -/
noncomputable def spatialFallback (s : TState) (dets : List Det) (w h maxLost : ℕ)
    (excl : List ℤ) : Option (Box × ℤ) × TState :=
  match s.last_bbox with
  | none => (none, { s with frames_lost := s.frames_lost + 1 })
  | some lb =>
    if maxLost ≤ s.frames_lost then (none, { s with frames_lost := s.frames_lost + 1 }) else
    let bodyExtent := max (max s.avg_w s.avg_h) 50
    let maxDist := min (bodyExtent * (3.0 + ((s.frames_lost - graceFrames : ℕ) : ℝ) * 0.5))
      (diagWH w h * 0.20)
    match bestCandidate s dets excl maxDist lb with
    | (some d, bestScore) =>
      if 0.15 < bestScore then
        let s1 := { s with pending_id := some d.id, pending_bbox := some d.box, pending_count := 1 }
        if pendingNeeded ≤ s1.pending_count then
          (some (d.box, d.id),
            { accept s1 d.box d.id with pending_id := none, pending_count := 0 })
        else
          (some (d.box, d.id), { s1 with last_bbox := some d.box, frames_lost := 0 })
      else (none, { s with frames_lost := s.frames_lost + 1 })
    | (none, _) => (none, { s with frames_lost := s.frames_lost + 1 })

/-- Steps 2-3 of `update`: the grace-period check followed by spatial
fallback (source lines 155-226). -/
noncomputable def afterPending (s : TState) (dets : List Det) (w h maxLost : ℕ)
    (excl : List ℤ) : Option (Box × ℤ) × TState :=
  if s.frames_lost < graceFrames then (none, { s with frames_lost := s.frames_lost + 1 })
  else spatialFallback s dets w h maxLost excl

/-- `_SimpleTracker.update(track_ids, boxes_xyxy, frame_w, frame_h,
max_lost, excluded_ids)`: returns the matched `(box, identifier)` (or
`none`) together with the successor state. -/
noncomputable def update (s : TState) (dets : List Det) (w h maxLost : ℕ) (excl : List ℤ) :
    Option (Box × ℤ) × TState :=
  if dets.length = 0 then
    (none, { s with frames_lost := s.frames_lost + 1, pending_id := none, pending_count := 0 })
  else
    match step1Find s dets w h excl with
    | some d =>
      (some (d.box, d.id), { accept s d.box d.id with pending_id := none, pending_count := 0 })
    | none =>
      match s.pending_id with
      | some pid =>
        match pendingFind s pid dets w h excl with
        | some d =>
          let s1 := { s with pending_count := s.pending_count + 1, pending_bbox := some d.box }
          if pendingNeeded ≤ s1.pending_count then
            (some (d.box, d.id),
              { accept s1 d.box d.id with pending_id := none, pending_count := 0 })
          else
            (some (d.box, d.id), { s1 with last_bbox := some d.box, frames_lost := 0 })
        | none =>
          afterPending { s with pending_id := none, pending_count := 0 } dets w h maxLost excl
      | none => afterPending s dets w h maxLost excl

/-- `max_lost` as computed by `PlayerTracker.extract_player_crops`
(source line 315): `max(15, int((fps / max(frame_skip, 1)) * 3.0))`. -/
def maxLostCrops (fps : ℚ) (frameSkip : ℕ) : ℕ :=
  max 15 (pyIntN (fps / (max frameSkip 1 : ℕ) * 3.0))

/-- One frame of the multi-subject loop of
`PlayerTracker.get_all_frames_bboxes` (source lines 498-505): trackers
run in priority order, each receiving the identifiers already claimed by
its predecessors in the same frame. -/
noncomputable def processStep (dets : List Det) (w h maxLost : ℕ)
    (acc : List (Option (Box × ℤ)) × List TState × List ℤ) (tr : TState) :
    List (Option (Box × ℤ)) × List TState × List ℤ :=
  let r := update tr dets w h maxLost acc.2.2
  let claimed := match r.1 with
    | some bt => bt.2 :: acc.2.2
    | none => acc.2.2
  (acc.1 ++ [r.1], acc.2.1 ++ [r.2], claimed)

/-- One frame of the multi-subject loop (see `processStep`). -/
noncomputable def processFrame (trackers : List TState) (dets : List Det) (w h maxLost : ℕ) :
    List (Option (Box × ℤ)) × List TState :=
  let res := trackers.foldl (processStep dets w h maxLost) ([], [], [])
  (res.1, res.2.1)

/-- Run `update` over a sequence of frames, returning the per-frame
result and successor state. -/
noncomputable def runTrace (s : TState) (frames : List (List Det)) (w h maxLost : ℕ)
    (excl : List ℤ) : List (Option (Box × ℤ) × TState) :=
  match frames with
  | [] => []
  | f :: rest =>
    let r := update s f w h maxLost excl
    r :: runTrace r.2 rest w h maxLost excl

/-- Clear the pending candidate (source lines 151-153: only
`_pending_id` and `_pending_count` are reset; `_pending_bbox` is left in
place). -/
def clearPending (s : TState) : TState :=
  { s with pending_id := none, pending_count := 0 }

end Tracker

/-! ## Tracker lemmas and claim theorems -/

section TrackerProofs

/-- A `List.contains` test that comes back `false` really is
non-membership. -/
theorem not_mem_of_contains_eq_false {l : List ℤ} {a : ℤ} (h : l.contains a = false) :
    a ∉ l := by
  intro hm
  have h2 : l.elem a = false := h
  have h3 := List.elem_iff.mpr hm
  rw [h2] at h3
  exact Bool.false_ne_true h3

/-- An empty frame: the counter advances and the pending candidate is
dropped (source lines 105-109). -/
theorem update_nil (s : TState) (w h maxLost : ℕ) (excl : List ℤ) :
    update s [] w h maxLost excl =
      (none, { s with frames_lost := s.frames_lost + 1, pending_id := none, pending_count := 0 }) := by
  simp [update]

/-- `step1Pred` unpacked. -/
theorem step1Pred_spec {s : TState} {w h : ℕ} {excl : List ℤ} {d : Det}
    (hd : step1Pred s w h excl d = true) : d.id = s.current_id ∧ d.id ∉ excl := by
  simp only [step1Pred, Bool.and_eq_true, beq_iff_eq, Bool.not_eq_true'] at hd
  exact ⟨hd.1.1, not_mem_of_contains_eq_false hd.1.2⟩

/-- `pendingPred` unpacked. -/
theorem pendingPred_spec {s : TState} {pid : ℤ} {w h : ℕ} {excl : List ℤ} {d : Det}
    (hd : pendingPred s pid w h excl d = true) : d.id = pid ∧ d.id ∉ excl := by
  simp only [pendingPred, Bool.and_eq_true, beq_iff_eq, Bool.not_eq_true'] at hd
  exact ⟨hd.1.1, not_mem_of_contains_eq_false hd.1.2⟩

/-- `candAdmissible` rejects claimed identifiers. -/
theorem candAdmissible_not_excl {s : TState} {excl : List ℤ} {maxDist : ℝ} {lb : Box} {d : Det}
    (hd : candAdmissible s excl maxDist lb d = true) : d.id ∉ excl := by
  simp only [candAdmissible, Bool.and_eq_true, Bool.not_eq_true'] at hd
  exact not_mem_of_contains_eq_false hd.1.1

/-- The fold of the spatial-fallback scoring loop only ever selects an
admissible detection. -/
theorem bestCandidate_admissible {s : TState} {dets : List Det} {excl : List ℤ} {maxDist : ℝ}
    {lb : Box} {d : Det} {sc : ℝ}
    (hb : bestCandidate s dets excl maxDist lb = (some d, sc)) :
    candAdmissible s excl maxDist lb d = true := by
  unfold bestCandidate at hb
  suffices hgen : ∀ (l : List Det) (acc : Option Det × ℝ),
      (∀ d0, acc.1 = some d0 → candAdmissible s excl maxDist lb d0 = true) →
      ∀ d1 sc1, l.foldl (fun acc d =>
        if candAdmissible s excl maxDist lb d then
          let sc := candScore maxDist lb d.box
          if acc.2 < sc then (some d, sc) else acc
        else acc) acc = (some d1, sc1) →
      candAdmissible s excl maxDist lb d1 = true by
    exact hgen dets (none, -1) (by intro d0 h0; simp at h0) d sc hb
  intro l
  induction l with
  | nil =>
    intro acc hacc d1 sc1 hfold
    simp only [List.foldl_nil] at hfold
    exact hacc d1 (by rw [hfold])
  | cons a t ih =>
    intro acc hacc d1 sc1 hfold
    simp only [List.foldl_cons] at hfold
    by_cases ha : candAdmissible s excl maxDist lb a = true
    · rw [if_pos ha] at hfold
      by_cases hsc : acc.2 < candScore maxDist lb a.box
      · rw [if_pos hsc] at hfold
        refine ih _ ?_ d1 sc1 hfold
        intro d0 h0
        have had : a = d0 := by simpa using h0
        rwa [had] at ha
      · rw [if_neg hsc] at hfold
        exact ih _ hacc d1 sc1 hfold
    · rw [if_neg (by simpa using ha)] at hfold
      exact ih _ hacc d1 sc1 hfold

/-- `spatialFallback` never changes `current_id`, `avg_w` or `avg_h`
except through an `accept`, which cannot fire on a first sighting
(`pending_count` is set to 1 and `pending_needed` is 2). -/
theorem spatialFallback_current_id (s : TState) (dets : List Det) (w h maxLost : ℕ)
    (excl : List ℤ) :
    (spatialFallback s dets w h maxLost excl).2.current_id = s.current_id := by
  simp only [spatialFallback]
  split
  · rfl
  · split
    · rfl
    · split
      · split
        · split
          · next hn => simp [pendingNeeded] at hn
          · rfl
        · rfl
      · rfl

/-- `afterPending` never changes `current_id`. -/
theorem afterPending_current_id (s : TState) (dets : List Det) (w h maxLost : ℕ)
    (excl : List ℤ) :
    (afterPending s dets w h maxLost excl).2.current_id = s.current_id := by
  unfold afterPending
  split
  · rfl
  · exact spatialFallback_current_id s dets w h maxLost excl

/-- Running the tracker over nothing-but-empty frames: every frame
returns not-found and the lost counter advances by exactly one per
frame. -/
theorem runTrace_empty_frames (s : TState) (frames : List (List Det)) (w h maxLost : ℕ)
    (excl : List ℤ) (hall : ∀ f ∈ frames, f = []) :
    runTrace s frames w h maxLost excl =
      (List.range frames.length).map (fun i =>
        (none,
          { s with
            frames_lost := s.frames_lost + i + 1
            pending_id := none
            pending_count := 0 })) := by
  induction frames generalizing s with
  | nil => simp [runTrace]
  | cons f rest ih =>
    have hf : f = [] := hall f (List.mem_cons_self f rest)
    subst hf
    rw [runTrace, update_nil]
    rw [ih _ (fun g hg => hall g (List.mem_cons_of_mem _ hg))]
    rw [List.length_cons, List.range_succ_eq_map]
    simp only [List.map_cons, List.map_map]
    refine List.cons_eq_cons.mpr ⟨rfl, ?_⟩
    refine List.map_congr_left ?_
    intro i _
    simp only [Function.comp_apply, Prod.mk.injEq, true_and]
    have : s.frames_lost + 1 + i + 1 = s.frames_lost + (i + 1) + 1 := by omega
    rw [this]

/-- Claim C5: over a frame sequence consisting only of zero-detection
frames, every `update` returns not-found (no box, no identifier) and
`frames_lost` advances each frame, hence is monotonically
non-decreasing over the sequence. -/
theorem tracker_zero_detection_frames (s : TState) (frames : List (List Det))
    (w h maxLost : ℕ) (excl : List ℤ) (hall : ∀ f ∈ frames, f = []) :
    (∀ r ∈ runTrace s frames w h maxLost excl, r.1 = none) ∧
    (∀ i j, i ≤ j → j < frames.length →
      ((runTrace s frames w h maxLost excl).getD i (none, s)).2.frames_lost ≤
        ((runTrace s frames w h maxLost excl).getD j (none, s)).2.frames_lost) := by
  have hrun := runTrace_empty_frames s frames w h maxLost excl hall
  constructor
  · intro r hr
    rw [hrun] at hr
    obtain ⟨i, hi, hmap⟩ := List.mem_map.mp hr
    rw [← hmap]
  · intro i j hij hj
    have hi : i < frames.length := lt_of_le_of_lt hij hj
    have hlen : (runTrace s frames w h maxLost excl).length = frames.length := by
      rw [hrun]; simp
    rw [hrun]
    rw [List.getD_eq_getElem _ _ (by simpa using hi), List.getD_eq_getElem _ _ (by simpa using hj)]
    simp only [List.getElem_map, List.getElem_range]
    omega

/-- Reachability invariant: `update` leaves `pending_count` at most 1
whenever it was at most 1 (it is 0 at construction), because a count
that reaches `pending_needed = 2` is immediately committed and reset. -/
theorem update_pending_count_le_one (s : TState) (dets : List Det) (w h maxLost : ℕ)
    (excl : List ℤ) (hc : s.pending_count ≤ 1) :
    (update s dets w h maxLost excl).2.pending_count ≤ 1 := by
  have hafter : ∀ s' : TState, s'.pending_count ≤ 1 →
      (afterPending s' dets w h maxLost excl).2.pending_count ≤ 1 := by
    intro s' hc'
    simp only [afterPending, spatialFallback]
    repeat' split
    all_goals first
      | exact hc'
      | exact Nat.zero_le 1
      | exact Nat.le_refl 1
  simp only [update]
  repeat' split
  all_goals first
    | exact hc
    | exact Nat.zero_le 1
    | exact hafter _ (Nat.zero_le 1)
    | exact hafter s hc
    | (dsimp only
       simp only [pendingNeeded] at *
       omega)

/-- Every branch of `update` either drops the pending candidate or
resets the lost counter: after any call, a live pending candidate
implies `frames_lost = 0`. -/
theorem update_pending_or (s : TState) (dets : List Det) (w h maxLost : ℕ) (excl : List ℤ) :
    (update s dets w h maxLost excl).2.pending_id = none ∨
    (update s dets w h maxLost excl).2.frames_lost = 0 := by
  have hafter : ∀ s' : TState, s'.pending_id = none →
      (afterPending s' dets w h maxLost excl).2.pending_id = none ∨
      (afterPending s' dets w h maxLost excl).2.frames_lost = 0 := by
    intro s' hp'
    simp only [afterPending, spatialFallback]
    repeat' split
    all_goals first
      | exact Or.inl hp'
      | exact Or.inr rfl
  simp only [update]
  repeat' split
  all_goals first
    | exact Or.inl rfl
    | exact Or.inr rfl
    | exact hafter _ rfl
    | (rename_i heq; exact hafter s heq)

/-- Claim C1: `current_id` never changes to a spatial-fallback
candidate's identifier on that candidate's first sighting.  If an
`update` call changes `current_id` at all, the new identifier was
already the pending candidate before the call with `pending_count = 1`
(one earlier consecutive sighting), so the change happens on the second
consecutive confirming frame — exactly `pending_needed = 2` sightings.
The hypothesis `pending_count ≤ 1` is the reachability invariant
`update_pending_count_le_one` (it holds at construction). -/
theorem tracker_commit_needs_two_consecutive_frames (s : TState) (dets : List Det)
    (w h maxLost : ℕ) (excl : List ℤ) (hc : s.pending_count ≤ 1) :
    (update s dets w h maxLost excl).2.current_id ≠ s.current_id →
      s.pending_id = some ((update s dets w h maxLost excl).2.current_id) ∧
      s.pending_count = 1 := by
  simp only [update]
  split
  · intro hne; exact absurd rfl hne
  · split
    · next d hd =>
      intro hne
      have hid := (step1Pred_spec (List.find?_some hd)).1
      exact absurd (by simp [accept, hid]) hne
    · split
      · next pid hpid =>
        split
        · next d hfd =>
          have hid := (pendingPred_spec (List.find?_some hfd)).1
          split
          · next hcnt =>
            intro hne
            simp only [pendingNeeded] at hcnt
            refine ⟨?_, by omega⟩
            rw [hpid]
            simp [accept, hid]
          · intro hne; exact absurd rfl hne
        · intro hne
          exact absurd (afterPending_current_id _ dets w h maxLost excl) hne
      · intro hne
        exact absurd (afterPending_current_id s dets w h maxLost excl) hne

/-- Witness for C1 at a concrete state and frame. -/
theorem tracker_commit_needs_two_consecutive_frames_witness :
    (initTState 1 none).pending_count ≤ 1 ∧
      ((update (initTState 1 none) [⟨2, ⟨0, 0, 10, 20⟩⟩] 30 40 15 []).2.current_id ≠
          (initTState 1 none).current_id →
        (initTState 1 none).pending_id =
          some ((update (initTState 1 none) [⟨2, ⟨0, 0, 10, 20⟩⟩] 30 40 15 []).2.current_id) ∧
        (initTState 1 none).pending_count = 1) :=
  ⟨by decide, tracker_commit_needs_two_consecutive_frames (initTState 1 none)
    [⟨2, ⟨0, 0, 10, 20⟩⟩] 30 40 15 [] (by decide)⟩

/-- Characterisation of the grace/fallback phase: it either returns
not-found and only bumps the lost counter, or returns a fresh
non-excluded spatial candidate tentatively (pending set, count 1,
`last_bbox` overwritten, counter reset) - the commit branch is dead
because a first sighting sets the count to 1 < `pending_needed`. -/
theorem afterPending_cases (s' : TState) (dets : List Det) (w h maxLost : ℕ) (excl : List ℤ) :
    afterPending s' dets w h maxLost excl =
      (none, { s' with frames_lost := s'.frames_lost + 1 }) ∨
    ∃ d : Det, d.id ∉ excl ∧
      afterPending s' dets w h maxLost excl =
        (some (d.box, d.id),
          { s' with
            pending_id := some d.id
            pending_bbox := some d.box
            pending_count := 1
            last_bbox := some d.box
            frames_lost := 0 }) := by
  simp only [afterPending, spatialFallback]
  split
  · exact Or.inl rfl
  · split
    · exact Or.inl rfl
    · split
      · exact Or.inl rfl
      · split
        · split
          · split
            · next hpn => simp [pendingNeeded] at hpn
            · next d bs hbc hsc hpn =>
              exact Or.inr ⟨d, candAdmissible_not_excl (bestCandidate_admissible hbc), rfl⟩
          · exact Or.inl rfl
        · exact Or.inl rfl

/-- Claim C10: when an `update` call returns while a pending candidate
is still live (a tentative pending-confirmation return, in either the
step-1b confirmation branch or the fresh spatial-fallback branch), the
call leaves `current_id` and the running size estimate (`avg_w`,
`avg_h`) unchanged, but overwrites `last_bbox` with the pending
candidate's box and resets `frames_lost` to 0. -/
theorem tracker_tentative_return_effects (s : TState) (dets : List Det) (w h maxLost : ℕ)
    (excl : List ℤ)
    (hpend : (update s dets w h maxLost excl).2.pending_id ≠ none) :
    ∃ b tid,
      (update s dets w h maxLost excl).1 = some (b, tid) ∧
      (update s dets w h maxLost excl).2.pending_id = some tid ∧
      (update s dets w h maxLost excl).2.current_id = s.current_id ∧
      (update s dets w h maxLost excl).2.avg_w = s.avg_w ∧
      (update s dets w h maxLost excl).2.avg_h = s.avg_h ∧
      (update s dets w h maxLost excl).2.last_bbox = some b ∧
      (update s dets w h maxLost excl).2.frames_lost = 0 := by
  simp only [update] at hpend ⊢
  by_cases h0 : dets.length = 0
  · rw [if_pos h0] at hpend
    exact absurd rfl hpend
  rw [if_neg h0] at hpend ⊢
  split at hpend
  · exact absurd rfl hpend
  · split at hpend
    · next pid hpid =>
      split at hpend
      · next d hfd =>
        split at hpend
        · exact absurd rfl hpend
        · next hpn =>
          rw [if_neg hpn]
          have hid := (pendingPred_spec (List.find?_some hfd)).1
          exact ⟨d.box, d.id, rfl, by rw [← hid] at hpid; exact hpid ▸ rfl,
            rfl, rfl, rfl, rfl, rfl⟩
      · rcases afterPending_cases { s with pending_id := none, pending_count := 0 }
            dets w h maxLost excl with hA | ⟨d, hne, hA⟩
        · rw [hA] at hpend
          exact absurd rfl hpend
        · rw [hA] at hpend ⊢
          exact ⟨d.box, d.id, rfl, rfl, rfl, rfl, rfl, rfl, rfl⟩
    · next hpid =>
      rcases afterPending_cases s dets w h maxLost excl with hA | ⟨d, hne, hA⟩
      · rw [hA] at hpend
        exact absurd hpid hpend
      · rw [hA] at hpend ⊢
        exact ⟨d.box, d.id, rfl, rfl, rfl, rfl, rfl, rfl, rfl⟩

/-- Witness for C10: a tracker holding pending identifier 5 (no pending
box recorded) sees identifier 5 again; the call returns tentatively. -/
theorem tracker_tentative_return_effects_witness :
    ((update ⟨1, none, 0, 60, 120, some 5, none, 0⟩ [⟨5, ⟨10, 10, 60, 130⟩⟩] 30 40 15
        []).2.pending_id ≠ none) ∧
    (∃ b tid,
      (update ⟨1, none, 0, 60, 120, some 5, none, 0⟩ [⟨5, ⟨10, 10, 60, 130⟩⟩] 30 40 15 []).1 =
        some (b, tid) ∧
      (update ⟨1, none, 0, 60, 120, some 5, none, 0⟩ [⟨5, ⟨10, 10, 60, 130⟩⟩] 30 40 15
          []).2.pending_id = some tid ∧
      (update ⟨1, none, 0, 60, 120, some 5, none, 0⟩ [⟨5, ⟨10, 10, 60, 130⟩⟩] 30 40 15
          []).2.current_id = (⟨1, none, 0, 60, 120, some 5, none, 0⟩ : TState).current_id ∧
      (update ⟨1, none, 0, 60, 120, some 5, none, 0⟩ [⟨5, ⟨10, 10, 60, 130⟩⟩] 30 40 15
          []).2.avg_w = (⟨1, none, 0, 60, 120, some 5, none, 0⟩ : TState).avg_w ∧
      (update ⟨1, none, 0, 60, 120, some 5, none, 0⟩ [⟨5, ⟨10, 10, 60, 130⟩⟩] 30 40 15
          []).2.avg_h = (⟨1, none, 0, 60, 120, some 5, none, 0⟩ : TState).avg_h ∧
      (update ⟨1, none, 0, 60, 120, some 5, none, 0⟩ [⟨5, ⟨10, 10, 60, 130⟩⟩] 30 40 15
          []).2.last_bbox = some b ∧
      (update ⟨1, none, 0, 60, 120, some 5, none, 0⟩ [⟨5, ⟨10, 10, 60, 130⟩⟩] 30 40 15
          []).2.frames_lost = 0) :=
  ⟨by decide, tracker_tentative_return_effects ⟨1, none, 0, 60, 120, some 5, none, 0⟩
    [⟨5, ⟨10, 10, 60, 130⟩⟩] 30 40 15 [] (by decide)⟩

/-- Truncation toward zero agrees with the floor on nonnegative
arguments. -/
theorem pyInt_of_nonneg {α : Type*} [LinearOrderedField α] [FloorRing α] (x : α)
    (hx : 0 ≤ x) : pyInt x = ⌊x⌋ := by
  unfold pyInt
  rw [if_neg (not_lt.mpr hx)]

/-- On nonnegative arguments, `pyIntN` is a lower bound of its
argument. -/
theorem pyIntN_le {α : Type*} [LinearOrderedField α] [FloorRing α] (x : α) (hx : 0 ≤ x) :
    (pyIntN x : α) ≤ x := by
  unfold pyIntN
  rw [pyInt_of_nonneg x hx]
  have hc : ((⌊x⌋.toNat : ℕ) : ℤ) = ⌊x⌋ := Int.toNat_of_nonneg (Int.floor_nonneg.mpr hx)
  have h1 : (((⌊x⌋.toNat : ℕ) : ℤ) : α) ≤ x := by rw [hc]; exact Int.floor_le x
  exact_mod_cast h1

/-- Once `frames_lost` has reached `max_lost`, the grace/fallback phase
always reports not-found and only bumps the counter. -/
theorem afterPending_lost (s' : TState) (dets : List Det) (w h maxLost : ℕ) (excl : List ℤ)
    (hml : maxLost ≤ s'.frames_lost) :
    afterPending s' dets w h maxLost excl =
      (none, { s' with frames_lost := s'.frames_lost + 1 }) := by
  simp only [afterPending, spatialFallback]
  repeat' split
  all_goals first
    | rfl
    | exact absurd hml (by omega)
    | (next hpn => simp [pendingNeeded] at hpn)

/-- Claim C3: once `frames_lost` exceeds `max_lost` (with no pending
candidate, as in any reachable lost state), spatial fallback is
disabled: the call either accepts a detection carrying `current_id`
directly (the ACTIVE path) or returns not-found, merely bumping the
counter - so the premise still holds at the next frame and fallback
stays disabled for the remainder of the pass until `current_id`
reappears. -/
theorem tracker_lost_disables_fallback (s : TState) (dets : List Det) (w h maxLost : ℕ)
    (excl : List ℤ) (hp : s.pending_id = none) (hc : s.pending_count = 0)
    (hl : maxLost < s.frames_lost) :
    (∃ b, (update s dets w h maxLost excl).1 = some (b, s.current_id)) ∨
    (update s dets w h maxLost excl = (none, { s with frames_lost := s.frames_lost + 1 }) ∧
      maxLost < (update s dets w h maxLost excl).2.frames_lost ∧
      (update s dets w h maxLost excl).2.pending_id = none) := by
  obtain ⟨cid, lb, fl, aw, ah, pi, pb, pc⟩ := s
  simp only at hp hc hl
  subst hp hc
  simp only [update]
  by_cases h0 : dets.length = 0
  · rw [if_pos h0]
    exact Or.inr ⟨rfl, Nat.lt_succ_of_lt hl, rfl⟩
  rw [if_neg h0]
  split
  · next d hd =>
    have hid := (step1Pred_spec (List.find?_some hd)).1
    exact Or.inl ⟨d.box, by rw [hid]⟩
  · rw [afterPending_lost _ dets w h maxLost excl (Nat.le_of_lt hl)]
    exact Or.inr ⟨rfl, Nat.lt_succ_of_lt hl, rfl⟩

/-- The crop-extraction lost threshold at 30 fps with frame skip 3. -/
theorem maxLostCrops_30_3 : maxLostCrops 30 3 = 30 := by
  unfold maxLostCrops pyIntN
  rw [pyInt_of_nonneg _ (by norm_num)]
  norm_num
  decide

/-- Witness for C3 at a lost state (`frames_lost = 40`) with the
`extract_player_crops` threshold for 30 fps video and frame skip 3. -/
theorem tracker_lost_disables_fallback_witness :
    ((⟨1, none, 40, 60, 120, none, none, 0⟩ : TState).pending_id = none ∧
     (⟨1, none, 40, 60, 120, none, none, 0⟩ : TState).pending_count = 0 ∧
     maxLostCrops 30 3 < (⟨1, none, 40, 60, 120, none, none, 0⟩ : TState).frames_lost) ∧
    ((∃ b, (update ⟨1, none, 40, 60, 120, none, none, 0⟩ [⟨7, ⟨0, 0, 9, 9⟩⟩] 30 40
        (maxLostCrops 30 3) []).1 = some (b, (⟨1, none, 40, 60, 120, none, none, 0⟩ : TState).current_id)) ∨
      (update ⟨1, none, 40, 60, 120, none, none, 0⟩ [⟨7, ⟨0, 0, 9, 9⟩⟩] 30 40
          (maxLostCrops 30 3) [] =
        (none, { (⟨1, none, 40, 60, 120, none, none, 0⟩ : TState) with frames_lost := 40 + 1 }) ∧
        maxLostCrops 30 3 < (update ⟨1, none, 40, 60, 120, none, none, 0⟩ [⟨7, ⟨0, 0, 9, 9⟩⟩]
          30 40 (maxLostCrops 30 3) []).2.frames_lost ∧
        (update ⟨1, none, 40, 60, 120, none, none, 0⟩ [⟨7, ⟨0, 0, 9, 9⟩⟩] 30 40
          (maxLostCrops 30 3) []).2.pending_id = none)) :=
  ⟨⟨rfl, rfl, by
      show maxLostCrops 30 3 < 40
      rw [maxLostCrops_30_3]
      decide⟩,
    tracker_lost_disables_fallback ⟨1, none, 40, 60, 120, none, none, 0⟩ [⟨7, ⟨0, 0, 9, 9⟩⟩]
      30 40 (maxLostCrops 30 3) [] rfl rfl (by
        show maxLostCrops 30 3 < 40
        rw [maxLostCrops_30_3]
        decide)⟩

/-- An `update` call never returns an identifier from the set of
identifiers it was told are already claimed. -/
theorem update_id_not_excluded (s : TState) (dets : List Det) (w h maxLost : ℕ)
    (excl : List ℤ) (bt : Box × ℤ)
    (hr : (update s dets w h maxLost excl).1 = some bt) : bt.2 ∉ excl := by
  simp only [update] at hr
  by_cases h0 : dets.length = 0
  · rw [if_pos h0] at hr
    exact absurd hr (by simp)
  rw [if_neg h0] at hr
  split at hr
  · next d hd =>
    have hb : (d.box, d.id) = bt := Option.some.inj hr
    rw [← hb]
    exact (step1Pred_spec (List.find?_some hd)).2
  · split at hr
    · next pid hpid =>
      split at hr
      · next d hfd =>
        split at hr
        · have hb : (d.box, d.id) = bt := Option.some.inj hr
          rw [← hb]
          exact (pendingPred_spec (List.find?_some hfd)).2
        · have hb : (d.box, d.id) = bt := Option.some.inj hr
          rw [← hb]
          exact (pendingPred_spec (List.find?_some hfd)).2
      · rcases afterPending_cases { s with pending_id := none, pending_count := 0 }
            dets w h maxLost excl with hA | ⟨d, hne, hA⟩
        · rw [hA] at hr
          exact absurd hr (by simp)
        · rw [hA] at hr
          have hb : (d.box, d.id) = bt := Option.some.inj hr
          rw [← hb]
          exact hne
    · rcases afterPending_cases s dets w h maxLost excl with hA | ⟨d, hne, hA⟩
      · rw [hA] at hr
        exact absurd hr (by simp)
      · rw [hA] at hr
        have hb : (d.box, d.id) = bt := Option.some.inj hr
        rw [← hb]
        exact hne

/-- Identifiers reported by a per-frame result list. -/
def outIds (outs : List (Option (Box × ℤ))) : List ℤ :=
  outs.filterMap (fun o => o.map (fun bt => bt.2))

/-- Reported identifiers are unchanged by a not-found entry. -/
theorem outIds_append_none (l : List (Option (Box × ℤ))) :
    outIds (l ++ [none]) = outIds l := by
  simp [outIds]

/-- A found entry appends its identifier to the reported list. -/
theorem outIds_append_some (l : List (Option (Box × ℤ))) (bt : Box × ℤ) :
    outIds (l ++ [some bt]) = outIds l ++ [bt.2] := by
  simp [outIds]

/-- Invariant of the multi-subject per-frame fold: reported identifiers
are pairwise distinct and all recorded in the claimed set handed to the
next tracker. -/
theorem processStep_fold_invariant (dets : List Det) (w h maxLost : ℕ) :
    ∀ (trs : List TState) (acc : List (Option (Box × ℤ)) × List TState × List ℤ),
      (∀ t ∈ outIds acc.1, t ∈ acc.2.2) → (outIds acc.1).Nodup →
      (∀ t ∈ outIds (trs.foldl (processStep dets w h maxLost) acc).1,
        t ∈ (trs.foldl (processStep dets w h maxLost) acc).2.2) ∧
      (outIds (trs.foldl (processStep dets w h maxLost) acc).1).Nodup := by
  intro trs
  induction trs with
  | nil => intro acc hsub hnd; exact ⟨hsub, hnd⟩
  | cons tr rest ih =>
    intro acc hsub hnd
    rw [List.foldl_cons]
    refine ih _ ?_ ?_
    · simp only [processStep]
      cases hr : (update tr dets w h maxLost acc.2.2).1 with
      | none =>
        rw [outIds_append_none]
        exact hsub
      | some bt =>
        rw [outIds_append_some]
        intro t ht
        rcases List.mem_append.mp ht with h1 | h1
        · exact List.mem_cons_of_mem _ (hsub t h1)
        · rw [List.mem_singleton.mp h1]
          exact List.mem_cons_self _ _
    · simp only [processStep]
      cases hr : (update tr dets w h maxLost acc.2.2).1 with
      | none =>
        rw [outIds_append_none]
        exact hnd
      | some bt =>
        rw [outIds_append_some]
        have hbt : bt.2 ∉ outIds acc.1 := fun hin =>
          update_id_not_excluded tr dets w h maxLost acc.2.2 bt hr (hsub bt.2 hin)
        rw [List.nodup_append]
        refine ⟨hnd, List.nodup_singleton _, ?_⟩
        intro a ha hb
        rw [List.mem_singleton.mp hb] at ha
        exact hbt ha

/-- Claim C4: within a single frame of multi-subject operation, no two
trackers report the same identifier.  Each tracker's `update` receives
the identifiers already claimed by earlier trackers (`processStep`
threads the claimed set) and `update_id_not_excluded` shows it never
returns one of them, so the reported identifier list has no
duplicates. -/
theorem multi_subject_no_duplicate_ids (trackers : List TState) (dets : List Det)
    (w h maxLost : ℕ) :
    (outIds (processFrame trackers dets w h maxLost).1).Nodup := by
  simp only [processFrame]
  exact (processStep_fold_invariant dets w h maxLost trackers ([], [], [])
    (by intro t ht; simp [outIds] at ht) (by simp [outIds])).2

/-- Claim C2 as stated: whenever a tracker holds a pending candidate,
the current identifier is not matched, and the pending identifier is
absent among non-excluded detections, the `update` call discards the
pending state and falls through to a fresh spatial-fallback search over
the same frame's detections. -/
def claimC2Statement : Prop :=
  ∀ (s : TState) (dets : List Det) (w h maxLost : ℕ) (excl : List ℤ) (pid : ℤ),
    s.pending_id = some pid →
    step1Find s dets w h excl = none →
    (∀ d ∈ dets, d.id = pid → d.id ∈ excl) →
    update s dets w h maxLost excl =
      spatialFallback (clearPending s) dets w h maxLost excl

/-- The spatial fallback on an empty detection list always reports
not-found. -/
theorem spatialFallback_nil (s' : TState) (w h maxLost : ℕ) (excl : List ℤ) :
    spatialFallback s' [] w h maxLost excl =
      (none, { s' with frames_lost := s'.frames_lost + 1 }) := by
  simp only [spatialFallback, bestCandidate, List.foldl_nil]
  repeat' split
  all_goals rfl

/-- Claim C2 amended: the pending state is discarded, but the call falls
through to the grace-period check, not directly to the spatial search.
A fresh spatial-fallback search runs only when `frames_lost` has already
reached `grace_frames` (4); while `frames_lost < 4` - which always holds
right after a pending frame, since tentative returns reset the counter
to 0 (`update_pending_or`) - the call returns not-found with the counter
merely bumped. -/
theorem tracker_pending_absent_discards_then_grace (s : TState) (dets : List Det)
    (w h maxLost : ℕ) (excl : List ℤ) (pid : ℤ)
    (hp : s.pending_id = some pid)
    (h1 : step1Find s dets w h excl = none)
    (habs : ∀ d ∈ dets, d.id = pid → d.id ∈ excl) :
    (s.frames_lost < graceFrames →
      update s dets w h maxLost excl =
        (none,
          { s with
            pending_id := none
            pending_count := 0
            frames_lost := s.frames_lost + 1 })) ∧
    (graceFrames ≤ s.frames_lost →
      update s dets w h maxLost excl =
        spatialFallback (clearPending s) dets w h maxLost excl) := by
  have hpf : pendingFind s pid dets w h excl = none :=
    List.find?_eq_none.mpr (fun d hd hp2 =>
      (pendingPred_spec hp2).2 (habs d hd (pendingPred_spec hp2).1))
  constructor
  · intro hg
    simp only [update]
    by_cases h0 : dets.length = 0
    · rw [if_pos h0]
    · rw [if_neg h0, h1, hp]
      dsimp only
      rw [hpf]
      simp only [afterPending]
      rw [if_pos hg]
  · intro hg
    simp only [update]
    by_cases h0 : dets.length = 0
    · rw [if_pos h0]
      have hd : dets = [] := List.length_eq_zero.mp h0
      subst hd
      rw [spatialFallback_nil]
      rfl
    · rw [if_neg h0, h1, hp]
      dsimp only
      rw [hpf]
      simp only [afterPending]
      rw [if_neg (not_lt.mpr hg)]
      rfl

/-- Center distance of a box to itself is zero. -/
theorem centerDist_self (b : Box) : centerDist b b = 0 := by
  unfold centerDist
  simp [sub_self]

/-- Edge distance of the counterexample box to itself is zero. -/
theorem edgeDist_self_cex : edgeDist ⟨100, 100, 150, 250⟩ ⟨100, 100, 150, 250⟩ = 0 := by
  unfold edgeDist
  rw [show edgeDx ⟨100, 100, 150, 250⟩ ⟨100, 100, 150, 250⟩ = 0 from by decide]
  rw [show edgeDy ⟨100, 100, 150, 250⟩ ⟨100, 100, 150, 250⟩ = 0 from by decide]
  simp

/-- IoU of the counterexample box with itself. -/
theorem iouB_self_cex : iouB ⟨100, 100, 150, 250⟩ ⟨100, 100, 150, 250⟩ = 1 := by
  simp only [iouB]
  rw [if_neg (by decide)]
  rw [if_pos (by decide)]
  norm_num

/-- The fallback scoring loop on the counterexample frame: the single
detection sits exactly on `last_bbox`, so it is admissible with score 1
for any nonnegative distance budget. -/
theorem bestCandidate_eval_cex (s' : TState) (M : ℝ) (hM : 0 ≤ M)
    (hw : s'.avg_w = 60) (hh : s'.avg_h = 120) :
    bestCandidate s' [⟨3, ⟨100, 100, 150, 250⟩⟩] [] M ⟨100, 100, 150, 250⟩ =
      (some ⟨3, ⟨100, 100, 150, 250⟩⟩, 1) := by
  have hca : candAdmissible s' [] M ⟨100, 100, 150, 250⟩ ⟨3, ⟨100, 100, 150, 250⟩⟩ = true := by
    simp only [candAdmissible, hw, hh, centerDist_self, edgeDist_self_cex]
    rw [min_self, decide_eq_false (not_lt.mpr hM)]
    rw [decide_eq_true (show (0 : ℝ) < 60 by norm_num)]
    rw [show ((boxW ⟨100, 100, 150, 250⟩ * boxH ⟨100, 100, 150, 250⟩ : ℤ) : ℝ) = 7500 from by
      norm_num [boxW, boxH]]
    rw [decide_eq_false (show ¬((7500 : ℝ) / (60 * 120 + 1e-6) < 0.2) from by norm_num)]
    rw [decide_eq_false (show ¬((5.0 : ℝ) < (7500 : ℝ) / (60 * 120 + 1e-6)) from by norm_num)]
    rfl
  have hsc : candScore M ⟨100, 100, 150, 250⟩ ⟨100, 100, 150, 250⟩ = 1 := by
    simp only [candScore, centerDist_self, edgeDist_self_cex, iouB_self_cex]
    rw [zero_div, sub_zero]
    rw [max_eq_right (show (0 : ℝ) ≤ 1 by norm_num)]
    norm_num
  simp only [bestCandidate, List.foldl_cons, List.foldl_nil]
  rw [if_pos hca, hsc]
  rw [if_pos (show (-1 : ℝ) < 1 by norm_num)]

/-- Counterexample for C2 as stated: a tracker with a live pending
candidate (identifier 2, `frames_lost = 0` as after any tentative
frame) sees a frame without identifier 2.  The pending state is
discarded, but the call returns not-found from the grace-period check,
while a fresh spatial-fallback search over the same frame would have
returned the detection sitting exactly on `last_bbox`. -/
theorem tracker_pending_absent_fresh_search_refuted : ¬ claimC2Statement := by
  intro hclaim
  have h := hclaim
    ⟨1, some ⟨100, 100, 150, 250⟩, 0, 60, 120, some 2, some ⟨100, 100, 150, 250⟩, 1⟩
    [⟨3, ⟨100, 100, 150, 250⟩⟩] 30 40 30 [] 2 rfl (by decide) (by decide)
  have hL : (update
      ⟨1, some ⟨100, 100, 150, 250⟩, 0, 60, 120, some 2, some ⟨100, 100, 150, 250⟩, 1⟩
      [⟨3, ⟨100, 100, 150, 250⟩⟩] 30 40 30 []).1 = none := by decide
  have hR : (spatialFallback
      (clearPending ⟨1, some ⟨100, 100, 150, 250⟩, 0, 60, 120, some 2,
        some ⟨100, 100, 150, 250⟩, 1⟩)
      [⟨3, ⟨100, 100, 150, 250⟩⟩] 30 40 30 []).1 = some (⟨100, 100, 150, 250⟩, 3) := by
    rw [show clearPending ⟨1, some ⟨100, 100, 150, 250⟩, 0, 60, 120, some 2,
      some ⟨100, 100, 150, 250⟩, 1⟩ =
      (⟨1, some ⟨100, 100, 150, 250⟩, 0, 60, 120, none, some ⟨100, 100, 150, 250⟩, 0⟩ : TState)
      from rfl]
    simp only [spatialFallback]
    rw [if_neg (by decide : ¬((30 : ℕ) ≤ 0))]
    rw [bestCandidate_eval_cex _ _ ?_ rfl rfl]
    · dsimp only
      rw [if_pos (show (0.15 : ℝ) < 1 by norm_num)]
      rw [if_neg (show ¬(pendingNeeded ≤ 1) by norm_num [pendingNeeded])]
    · refine le_min (mul_nonneg ?_ ?_) (mul_nonneg ?_ (by norm_num))
      · exact le_trans (by norm_num : (0 : ℝ) ≤ 50) (le_max_right _ _)
      · exact add_nonneg (by norm_num) (mul_nonneg (Nat.cast_nonneg _) (by norm_num))
      · unfold diagWH
        exact Real.sqrt_nonneg _
  rw [h] at hL
  rw [hL] at hR
  exact Option.noConfusion hR

/-- Witness for the amended C2 at the counterexample state and frame. -/
theorem tracker_pending_absent_discards_then_grace_witness :
    ((⟨1, some ⟨100, 100, 150, 250⟩, 0, 60, 120, some 2, some ⟨100, 100, 150, 250⟩, 1⟩ :
        TState).pending_id = some 2 ∧
      step1Find ⟨1, some ⟨100, 100, 150, 250⟩, 0, 60, 120, some 2,
        some ⟨100, 100, 150, 250⟩, 1⟩ [⟨3, ⟨100, 100, 150, 250⟩⟩] 30 40 [] = none ∧
      (∀ d ∈ [(⟨3, ⟨100, 100, 150, 250⟩⟩ : Det)], d.id = 2 → d.id ∈ ([] : List ℤ))) ∧
    (((⟨1, some ⟨100, 100, 150, 250⟩, 0, 60, 120, some 2, some ⟨100, 100, 150, 250⟩, 1⟩ :
          TState).frames_lost < graceFrames →
        update ⟨1, some ⟨100, 100, 150, 250⟩, 0, 60, 120, some 2, some ⟨100, 100, 150, 250⟩, 1⟩
            [⟨3, ⟨100, 100, 150, 250⟩⟩] 30 40 30 [] =
          (none,
            { (⟨1, some ⟨100, 100, 150, 250⟩, 0, 60, 120, some 2,
                some ⟨100, 100, 150, 250⟩, 1⟩ : TState) with
              pending_id := none
              pending_count := 0
              frames_lost := (⟨1, some ⟨100, 100, 150, 250⟩, 0, 60, 120, some 2,
                some ⟨100, 100, 150, 250⟩, 1⟩ : TState).frames_lost + 1 })) ∧
      (graceFrames ≤ (⟨1, some ⟨100, 100, 150, 250⟩, 0, 60, 120, some 2,
          some ⟨100, 100, 150, 250⟩, 1⟩ : TState).frames_lost →
        update ⟨1, some ⟨100, 100, 150, 250⟩, 0, 60, 120, some 2, some ⟨100, 100, 150, 250⟩, 1⟩
            [⟨3, ⟨100, 100, 150, 250⟩⟩] 30 40 30 [] =
          spatialFallback
            (clearPending ⟨1, some ⟨100, 100, 150, 250⟩, 0, 60, 120, some 2,
              some ⟨100, 100, 150, 250⟩, 1⟩)
            [⟨3, ⟨100, 100, 150, 250⟩⟩] 30 40 30 [])) :=
  ⟨⟨rfl, by decide, by decide⟩,
    tracker_pending_absent_discards_then_grace
      ⟨1, some ⟨100, 100, 150, 250⟩, 0, 60, 120, some 2, some ⟨100, 100, 150, 250⟩, 1⟩
      [⟨3, ⟨100, 100, 150, 250⟩⟩] 30 40 30 [] 2 rfl (by decide) (by decide)⟩

/-- Witness for C5 on two empty frames. -/
theorem tracker_zero_detection_frames_witness :
    (∀ f ∈ [([] : List Det), []], f = []) ∧
    ((∀ r ∈ runTrace (initTState 1 none) [[], []] 30 40 15 [], r.1 = none) ∧
      (∀ i j, i ≤ j → j < ([([] : List Det), []]).length →
        ((runTrace (initTState 1 none) [[], []] 30 40 15 []).getD i
            (none, initTState 1 none)).2.frames_lost ≤
          ((runTrace (initTState 1 none) [[], []] 30 40 15 []).getD j
            (none, initTState 1 none)).2.frames_lost)) :=
  ⟨by decide, tracker_zero_detection_frames (initTState 1 none) [[], []] 30 40 15 []
    (by decide)⟩

/-! ## Event-detector lemmas and claim theorems -/

section EventProofs

/-- Filtering by a predicate does not change a `filterMap` whose
function already drops everything the predicate drops. -/
theorem filterMap_filter_of_none {α β : Type*} (p : α → Bool) (f : α → Option β)
    (l : List α) (hf : ∀ c, p c = false → f c = none) :
    (l.filter p).filterMap f = l.filterMap f := by
  induction l with
  | nil => rfl
  | cons a t ih =>
    by_cases hp : p a = true
    · rw [List.filter_cons_of_pos hp, List.filterMap_cons, List.filterMap_cons, ih]
    · rw [List.filter_cons_of_neg hp, List.filterMap_cons,
        hf a (Bool.eq_false_iff.mpr hp), ih]

/-- A non-high-severity contact produces no stillness event. -/
theorem stillnessBody_non_high (speeds : List ℝ) (fps th : ℝ) (ce : ContactEvent)
    (hc : (ce.severity == "high") = false) :
    stillnessBody speeds fps th ce = none := by
  simp only [stillnessBody]
  rw [if_pos (beq_eq_false_iff_ne.mp hc)]

/-- Guard-free characterisation of `detectPostImpactStillness`: the
contact list only enters through the final `filterMap`. -/
theorem detectStillness_eq (kp : List (KFrame ℝ)) (fps : ℝ) (l : List ContactEvent) :
    detectPostImpactStillness kp fps l =
      if kp.length < 5 then [] else
      if (if 1 < (kp.map com).length
          then (diffL (kp.map com)).map (fun v => vnorm v / (1 / fps)) else []).length = 0
        then [] else
      if percentileQ (if 1 < (kp.map com).length
          then (diffL (kp.map com)).map (fun v => vnorm v / (1 / fps)) else []) 75 < 0.01
        then [] else
      l.filterMap (stillnessBody
        (if 1 < (kp.map com).length
          then (diffL (kp.map com)).map (fun v => vnorm v / (1 / fps)) else []) fps
        (max (percentileQ (if 1 < (kp.map com).length
          then (diffL (kp.map com)).map (fun v => vnorm v / (1 / fps)) else []) 75 * 0.05)
          0.003)) := by
  simp only [detectPostImpactStillness]
  by_cases hl : l.length = 0
  · rw [if_pos (Or.inl hl)]
    have hl2 : l = [] := List.length_eq_zero.mp hl
    subst hl2
    by_cases h5 : kp.length < 5
    · rw [if_pos h5]
    · rw [if_neg h5]
      split
      all_goals
        split
        · rfl
        · split
          · rfl
          · exact (List.filterMap_nil _).symm
  · by_cases h5 : kp.length < 5
    · rw [if_pos (Or.inr h5), if_pos h5]
    · rw [if_neg (by rintro (hh | hh); exacts [hl hh, h5 hh]), if_neg h5]

/-- Claim C8: `detect_post_impact_stillness` evaluates only
high-severity contact events - removing every non-high contact from the
input leaves the output unchanged, so a medium or low severity contact
never produces a stillness event by itself. -/
theorem stillness_only_high_contacts (kp : List (KFrame ℝ)) (fps : ℝ)
    (ces : List ContactEvent) :
    detectPostImpactStillness kp fps (ces.filter (fun c => c.severity == "high")) =
      detectPostImpactStillness kp fps ces := by
  rw [detectStillness_eq, detectStillness_eq]
  by_cases h5 : kp.length < 5
  · rw [if_pos h5, if_pos h5]
  rw [if_neg h5, if_neg h5]
  set sp : List ℝ := if 1 < (kp.map com).length
    then (diffL (kp.map com)).map (fun v => vnorm v / (1 / fps)) else [] with hsp
  by_cases hs : sp.length = 0
  · rw [if_pos hs, if_pos hs]
  rw [if_neg hs, if_neg hs]
  by_cases hb : percentileQ sp 75 < 0.01
  · rw [if_pos hb, if_pos hb]
  rw [if_neg hb, if_neg hb]
  exact filterMap_filter_of_none _ _ ces (stillnessBody_non_high sp fps _)

/-- `np.diff` shortens a list by one. -/
theorem length_diffL {β : Type*} [Sub β] (l : List β) : (diffL l).length = l.length - 1 := by
  simp [diffL, List.length_tail]

/-- A signal of at most two samples has no interior, hence no local
maxima. -/
theorem localMaxima_short {α : Type*} [LinearOrderedField α] (x : List α)
    (h : x.length ≤ 2) : localMaxima x = [] := by
  unfold localMaxima
  refine List.filterMap_eq_nil_iff.mpr ?_
  intro l _
  rw [if_neg]
  rintro ⟨h1, h2, _⟩
  omega

/-- `find_peaks` with height and distance returns nothing when there are
no local maxima. -/
theorem findPeaksHD_eq_nil {α : Type*} [LinearOrderedField α] (x : List α) (hmin : α)
    (d : ℕ) (h : localMaxima x = []) : findPeaksHD x hmin d = [] := by
  unfold findPeaksHD
  rw [h]
  rfl

/-- The whole post-peak pipeline of `detect_contacts` is empty when both
signals are too short to have peaks. -/
theorem contactsPipeline_nil (A B : List ℝ) (tA tB : ℝ) (g : ℕ)
    (f : ℕ → Option ContactEvent) (hA : A.length ≤ 2) (hB : B.length ≤ 2) :
    (greedyMerge g (sortedDedupN (findPeaksHD A tA g ++
      (findPeaksHD B tB g).map (fun p => p + 1)))).filterMap f = [] := by
  rw [findPeaksHD_eq_nil A tA g (localMaxima_short A hA),
    findPeaksHD_eq_nil B tB g (localMaxima_short B hB)]
  rfl

/-- Claim C9: every detector called with fewer frames than its minimum
frame count (5 for `detect_jumps`, `detect_contacts` and
`detect_post_impact_stillness`; `int(effective_fps * 2.5)` for
`detect_body_collapse`) returns empty results.  In this embedding all
four detectors are total functions, so no exception can occur. -/
theorem detectors_min_frames (kp : List (KFrame ℝ)) (fps : ℝ) (dth : Option ℝ)
    (ces : List ContactEvent) (minJ minP : ℝ) :
    (kp.length < 5 → detectJumps kp fps minJ minP = (0, [])) ∧
    (kp.length < 5 → detectContacts kp fps dth = (0, [])) ∧
    (kp.length < pyIntN (fps * 2.5) → detectBodyCollapse kp fps = []) ∧
    (kp.length < 5 → detectPostImpactStillness kp fps ces = []) := by
  refine ⟨fun h => ?_, fun h => ?_, fun h => ?_, fun h => ?_⟩
  · simp only [detectJumps]
    rw [if_pos h]
  · simp only [detectContacts]
    have hlm : (kp.map com).length = kp.length := List.length_map _ _
    by_cases h4 : (kp.map com).length < 4
    · rw [if_pos h4]
    · have h4e : kp.length = 4 := by omega
      rw [if_neg h4]
      rw [if_neg (show ¬((diffL (kp.map com)).map
          (fun v => vnorm v / (1 / fps))).length < 3 from by
        simp [length_diffL, hlm, h4e])]
      rw [contactsPipeline_nil]
      · rfl
      · simp [length_diffL, List.length_map, hlm, h4e]
      · simp [length_diffL, List.length_map, hlm, h4e]
  · simp only [detectBodyCollapse]
    rw [if_pos h]
  · simp only [detectPostImpactStillness]
    rw [if_pos (Or.inr h)]

/-- Witness for C9 on the empty keypoint sequence at 30 fps. -/
theorem detectors_min_frames_witness :
    (([] : List (KFrame ℝ)).length < 5 ∧
      ([] : List (KFrame ℝ)).length < pyIntN ((30 : ℝ) * 2.5)) ∧
    (detectJumps ([] : List (KFrame ℝ)) 30 0 0 = (0, []) ∧
      detectContacts ([] : List (KFrame ℝ)) 30 none = (0, []) ∧
      detectBodyCollapse ([] : List (KFrame ℝ)) 30 = [] ∧
      detectPostImpactStillness ([] : List (KFrame ℝ)) 30 [] = []) := by
  have hcoll : ([] : List (KFrame ℝ)).length < pyIntN ((30 : ℝ) * 2.5) := by
    unfold pyIntN
    rw [pyInt_of_nonneg _ (by norm_num)]
    norm_num
  obtain ⟨h1, h2, h3, h4⟩ := detectors_min_frames ([] : List (KFrame ℝ)) 30 none [] 0 0
  exact ⟨⟨by norm_num, hcoll⟩, h1 (by norm_num), h2 (by norm_num), h3 hcoll, h4 (by norm_num)⟩

/-- `getE` agrees with list indexing in range. -/
theorem getE_eq_getElem {β : Type*} [Zero β] (l : List β) (i : ℕ) (h : i < l.length) :
    getE l i = l[i] := by
  unfold getE
  exact List.getD_eq_getElem l 0 h

/-- Entries of `np.diff` are differences of consecutive entries. -/
theorem getE_diffL {β : Type*} [Sub β] [Zero β] (l : List β) (i : ℕ)
    (hi : i < (diffL l).length) :
    getE (diffL l) i = getE l (i + 1) - getE l i := by
  have h1 : i + 1 < l.length := by rw [length_diffL] at hi; omega
  rw [getE_eq_getElem _ _ hi, getE_eq_getElem _ _ h1, getE_eq_getElem _ _ (by omega)]
  unfold diffL
  simp [List.getElem_zip, List.getElem_tail]

/-- `np.diff` of a constant list is constantly the zero difference. -/
theorem diffL_replicate {β : Type*} [Sub β] [Zero β] (n : ℕ) (c : β) :
    diffL (List.replicate n c) = List.replicate (n - 1) (c - c) := by
  refine List.eq_replicate_iff.mpr ⟨by simp [length_diffL], ?_⟩
  intro b hb
  obtain ⟨i, hi, hvi⟩ := List.mem_iff_getElem.mp hb
  rw [← getE_eq_getElem _ _ hi] at hvi
  rw [getE_diffL _ _ hi] at hvi
  have hlen : i + 1 < n := by
    rw [length_diffL, List.length_replicate] at hi
    omega
  rw [getE_eq_getElem _ _ (by simpa using hlen),
    getE_eq_getElem _ _ (by simp; omega)] at hvi
  simpa [List.getElem_replicate] using hvi.symm

/-- A constant signal has no local maxima. -/
theorem localMaxima_replicate {α : Type*} [LinearOrderedField α] (n : ℕ) (c : α) :
    localMaxima (List.replicate n c) = [] := by
  unfold localMaxima
  refine List.filterMap_eq_nil_iff.mpr ?_
  intro l hl
  rw [if_neg]
  rintro ⟨h1, h2, h3⟩
  rw [List.length_replicate] at h2
  rw [getE_eq_getElem _ _ (by simp; omega), getE_eq_getElem _ _ (by simp; omega)] at h3
  simp only [List.getElem_replicate] at h3
  exact lt_irrefl c h3

/-- Claim C7: on a keypoint sequence whose center-of-mass trajectory has
exactly constant velocity (all consecutive COM differences equal), the
derived acceleration and jerk vanish, neither signal has peaks, and
`detect_contacts` returns zero events for any threshold argument. -/
theorem contacts_constant_velocity (kp : List (KFrame ℝ)) (fps : ℝ) (dth : Option ℝ)
    (d : ℝ × ℝ)
    (hconst : ∀ i, i + 1 < (kp.map com).length →
      getE (kp.map com) (i + 1) - getE (kp.map com) i = d) :
    detectContacts kp fps dth = (0, []) := by
  simp only [detectContacts]
  by_cases h4 : (kp.map com).length < 4
  · rw [if_pos h4]
  rw [if_neg h4]
  have hspeeds : (diffL (kp.map com)).map (fun v => vnorm v / (1 / fps)) =
      List.replicate ((kp.map com).length - 1) (vnorm d / (1 / fps)) := by
    refine List.eq_replicate_iff.mpr ⟨by simp [length_diffL], ?_⟩
    intro b hb
    obtain ⟨v, hv, hbv⟩ := List.mem_map.mp hb
    obtain ⟨i, hi, hvi⟩ := List.mem_iff_getElem.mp hv
    rw [← getE_eq_getElem _ _ hi, getE_diffL _ _ hi] at hvi
    have hb1 : i + 1 < (kp.map com).length := by rw [length_diffL] at hi; omega
    rw [hconst i hb1] at hvi
    rw [← hbv, ← hvi]
  rw [hspeeds]
  rw [if_neg (by simp only [List.length_replicate]; omega)]
  rw [diffL_replicate, sub_self, List.map_replicate, zero_div]
  rw [diffL_replicate, sub_self, List.map_replicate, zero_div]
  rw [List.map_replicate, List.map_replicate, abs_zero]
  rw [findPeaksHD_eq_nil _ _ _ (localMaxima_replicate _ _),
    findPeaksHD_eq_nil _ _ _ (localMaxima_replicate _ _)]
  rfl

/-- Witness for C7: five frames whose hips move right by 2 units per
frame (constant velocity). -/
theorem contacts_constant_velocity_witness :
    (∀ i, i + 1 < (([fun _ => ((0 : ℝ), (0 : ℝ)), fun _ => (2, 0), fun _ => (4, 0),
        fun _ => (6, 0), fun _ => (8, 0)] : List (KFrame ℝ)).map com).length →
      getE (([fun _ => ((0 : ℝ), (0 : ℝ)), fun _ => (2, 0), fun _ => (4, 0),
        fun _ => (6, 0), fun _ => (8, 0)] : List (KFrame ℝ)).map com) (i + 1) -
      getE (([fun _ => ((0 : ℝ), (0 : ℝ)), fun _ => (2, 0), fun _ => (4, 0),
        fun _ => (6, 0), fun _ => (8, 0)] : List (KFrame ℝ)).map com) i = ((2 : ℝ), (0 : ℝ))) ∧
    detectContacts ([fun _ => ((0 : ℝ), (0 : ℝ)), fun _ => (2, 0), fun _ => (4, 0),
        fun _ => (6, 0), fun _ => (8, 0)] : List (KFrame ℝ)) 30 none = (0, []) := by
  have hc : ∀ i, i + 1 < (([fun _ => ((0 : ℝ), (0 : ℝ)), fun _ => (2, 0), fun _ => (4, 0),
        fun _ => (6, 0), fun _ => (8, 0)] : List (KFrame ℝ)).map com).length →
      getE (([fun _ => ((0 : ℝ), (0 : ℝ)), fun _ => (2, 0), fun _ => (4, 0),
        fun _ => (6, 0), fun _ => (8, 0)] : List (KFrame ℝ)).map com) (i + 1) -
      getE (([fun _ => ((0 : ℝ), (0 : ℝ)), fun _ => (2, 0), fun _ => (4, 0),
        fun _ => (6, 0), fun _ => (8, 0)] : List (KFrame ℝ)).map com) i =
        ((2 : ℝ), (0 : ℝ)) := by
    intro i hi
    simp only [List.length_map, List.length_cons, List.length_nil] at hi
    have hi4 : i < 4 := by omega
    have hi0 : 0 ≤ i := Nat.zero_le i
    interval_cases i <;>
      simp [getE, com, midpointKF, Prod.mk_sub_mk] <;> norm_num
  exact ⟨hc, contacts_constant_velocity _ 30 none (2, 0) hc⟩

/-- The plateau scan never runs past index `length - 1`. -/
theorem iAheadGo_le {α : Type*} [LinearOrderedField α] (x : List α) (v : α) (j : ℕ)
    (hj : j ≤ x.length - 1) : iAheadGo x v j ≤ x.length - 1 := by
  rw [iAheadGo]
  split
  · next hcond => exact iAheadGo_le x v (j + 1) (by omega)
  · exact hj
termination_by x.length - j
decreasing_by omega

/-- Local maxima are interior indices. -/
theorem mem_localMaxima_lt {α : Type*} [LinearOrderedField α] {x : List α} {p : ℕ}
    (hp : p ∈ localMaxima x) : p < x.length - 1 := by
  unfold localMaxima at hp
  obtain ⟨l, hl, hbody⟩ := List.mem_filterMap.mp hp
  by_cases hg : 1 ≤ l ∧ l < x.length - 1 ∧ getE x (l - 1) < getE x l
  · rw [if_pos hg] at hbody
    have hia : iAheadGo x (getE x l) (l + 1) ≤ x.length - 1 :=
      iAheadGo_le x _ (l + 1) (by omega)
    by_cases hfall : getE x (iAheadGo x (getE x l) (l + 1)) < getE x l
    · rw [if_pos hfall] at hbody
      have := Option.some.inj hbody
      omega
    · rw [if_neg hfall] at hbody
      exact absurd hbody (by simp)
  · rw [if_neg hg] at hbody
    exact absurd hbody (by simp)

/-- The distance filter only returns members of its input peak list. -/
theorem mem_selectByPeakDistance {α : Type*} [LinearOrderedField α] {x : List α}
    {peaks : List ℕ} {d : ℕ} {q : ℕ} (hq : q ∈ selectByPeakDistance x peaks d) :
    q ∈ peaks := by
  simp only [selectByPeakDistance] at hq
  obtain ⟨pair, hpair, hq2⟩ := List.mem_map.mp hq
  have hmem := (List.mem_filter.mp hpair).1
  have h3 := List.mem_enumFrom hmem
  rw [← hq2]
  rw [h3.2.2]
  exact List.getElem_mem _

/-- `find_peaks` with prominence and distance returns interior local
maxima only. -/
theorem mem_findPeaksPD_lt {α : Type*} [LinearOrderedField α] {x : List α}
    {minProm : α} {dist : ℕ} {p : ℕ} (hp : p ∈ findPeaksPD x minProm dist) :
    p < x.length - 1 := by
  unfold findPeaksPD at hp
  exact mem_localMaxima_lt (mem_selectByPeakDistance (List.mem_filter.mp hp).1)

/-- The first-maximum scan stays inside the scanned range. -/
theorem idxMaxGo_lt {α : Type*} [LinearOrderedField α] :
    ∀ (t : List α) (bi : ℕ) (bv : α) (i : ℕ), bi < i → idxMaxGo bi bv i t < i + t.length := by
  intro t
  induction t with
  | nil => intro bi bv i hbi; simpa [idxMaxGo] using hbi
  | cons v tl ih =>
    intro bi bv i hbi
    rw [idxMaxGo]
    split
    · have := ih i v (i + 1) (Nat.lt_succ_self i)
      simp only [List.length_cons]
      omega
    · have := ih bi bv (i + 1) (Nat.lt_succ_of_lt hbi)
      simp only [List.length_cons]
      omega

/-- `np.argmax` of a nonempty list is a valid index. -/
theorem idxMaxFirst_lt {α : Type*} [LinearOrderedField α] (l : List α) (hl : l ≠ []) :
    idxMaxFirst l < l.length := by
  match l, hl with
  | a :: t, _ =>
    rw [idxMaxFirst]
    have := idxMaxGo_lt t 0 a 1 Nat.one_pos
    simpa [Nat.add_comm] using this

/-- Rounding half-to-even never goes below the floor. -/
theorem roundHalfEven_ge_floor {α : Type*} [LinearOrderedField α] [FloorRing α] (x : α) :
    ⌊x⌋ ≤ roundHalfEven x := by
  simp only [roundHalfEven]
  split_ifs <;> omega

/-- `pyRound` keeps a value at or above any bound that is a multiple of
the rounding precision. -/
theorem pyRound_ge {α : Type*} [LinearOrderedField α] [FloorRing α] (m : ℤ) (n : ℕ) (x : α)
    (h : (m : α) / 10 ^ n ≤ x) : (m : α) / 10 ^ n ≤ pyRound x n := by
  unfold pyRound
  have hp : (0 : α) < 10 ^ n := by positivity
  rw [div_le_div_iff_of_pos_right hp]
  have hm : m ≤ ⌊x * 10 ^ n⌋ := Int.le_floor.mpr (by
    rw [div_le_iff₀ hp] at h
    exact h)
  exact_mod_cast le_trans hm (roundHalfEven_ge_floor (x * 10 ^ n))

/-- Smoothing returns `max(len(x), k)` entries (numpy `mode="same"`). -/
theorem length_convSame {α : Type*} [LinearOrderedField α] (x : List α) (k : ℕ) :
    (convSame x k).length = max x.length k := by
  simp only [convSame, List.length_map, List.length_range]

/-- Bounds on the landing index constructed by `detect_jumps`: it lies
at or after the peak, strictly within one second after it, and inside
the sequence. -/
theorem landing_bounds {α : Type*} [LinearOrderedField α] [FloorRing α] (smooth : List α)
    (fps : α) (hfps : 0 < fps) (p : ℕ) (hp : p < smooth.length) :
    p ≤ p + (if 1 < ((smooth.drop p).take (min (p + pyIntN (fps * 1.0)) smooth.length - p)).length
        then idxMaxFirst ((smooth.drop p).take (min (p + pyIntN (fps * 1.0)) smooth.length - p))
        else 0) ∧
    ((p + (if 1 < ((smooth.drop p).take (min (p + pyIntN (fps * 1.0)) smooth.length - p)).length
        then idxMaxFirst ((smooth.drop p).take (min (p + pyIntN (fps * 1.0)) smooth.length - p))
        else 0) : ℕ) : α) < (p : α) + fps * 1.0 ∧
    p + (if 1 < ((smooth.drop p).take (min (p + pyIntN (fps * 1.0)) smooth.length - p)).length
        then idxMaxFirst ((smooth.drop p).take (min (p + pyIntN (fps * 1.0)) smooth.length - p))
        else 0) < smooth.length := by
  have hfone : (0 : α) < fps * 1.0 := by
    have : (0 : α) < (1.0 : α) := by norm_num
    exact mul_pos hfps this
  by_cases hseg :
      1 < ((smooth.drop p).take (min (p + pyIntN (fps * 1.0)) smooth.length - p)).length
  · rw [if_pos hseg]
    have hlen : ((smooth.drop p).take (min (p + pyIntN (fps * 1.0)) smooth.length - p)).length =
        min (min (p + pyIntN (fps * 1.0)) smooth.length - p) (smooth.length - p) := by
      simp [List.length_take, List.length_drop]
    have hidx : idxMaxFirst
        ((smooth.drop p).take (min (p + pyIntN (fps * 1.0)) smooth.length - p)) <
        ((smooth.drop p).take (min (p + pyIntN (fps * 1.0)) smooth.length - p)).length :=
      idxMaxFirst_lt _ (by
        intro hnil
        rw [hnil] at hseg
        simp at hseg)
    rw [hlen] at hidx
    refine ⟨Nat.le_add_right _ _, ?_, by omega⟩
    have hnat : p + idxMaxFirst
        ((smooth.drop p).take (min (p + pyIntN (fps * 1.0)) smooth.length - p)) + 1 ≤
        p + pyIntN (fps * 1.0) := by omega
    have hcast : ((p + idxMaxFirst
        ((smooth.drop p).take (min (p + pyIntN (fps * 1.0)) smooth.length - p)) + 1 : ℕ) : α) ≤
        ((p + pyIntN (fps * 1.0) : ℕ) : α) := Nat.cast_le.mpr hnat
    push_cast at hcast
    have hK := pyIntN_le (fps * 1.0) (le_of_lt hfone)
    push_cast
    linarith
  · rw [if_neg hseg]
    refine ⟨Nat.le_add_right _ _, ?_, by omega⟩
    push_cast
    linarith

/-- Plateau scan of the counterexample inverted signal from index 2:
the value there differs from -1, so the scan stops immediately. -/
theorem iAheadGo_cex_two :
    iAheadGo ([-3, -1, -7, -7, -7, -7, -7, 0, -2] : List ℚ) (-1 : ℚ) 2 = 2 := by
  rw [iAheadGo]
  rw [dif_neg (by norm_num [getE, List.getD])]

/-- Plateau scan of the counterexample inverted signal from index 8:
the index is already at the last sample, so the scan stops. -/
theorem iAheadGo_cex_eight :
    iAheadGo ([-3, -1, -7, -7, -7, -7, -7, 0, -2] : List ℚ) (0 : ℚ) 8 = 8 := by
  rw [iAheadGo]
  rw [dif_neg (by norm_num [getE, List.getD])]

set_option maxHeartbeats 2000000 in
/-- Local maxima of the counterexample inverted signal: indices 1 and 7. -/
theorem localMaxima_cex :
    localMaxima ([-3, -1, -7, -7, -7, -7, -7, 0, -2] : List ℚ) = [1, 7] := by
  norm_num [localMaxima, List.range_succ, getE, List.getD,
    List.filterMap_cons, iAheadGo_cex_two, iAheadGo_cex_eight]

set_option maxHeartbeats 2000000 in
/-- On the counterexample inverted signal the distance
filter keeps only the higher peak at 7, whose prominence 2 passes the
0.012 threshold. -/
theorem findPeaksPD_cex :
    findPeaksPD ([-3, -1, -7, -7, -7, -7, -7, 0, -2] : List ℚ) (12 / 1000) 21 = [7] := by
  rw [findPeaksPD]
  rw [localMaxima_cex]
  have hsel : selectByPeakDistance ([-3, -1, -7, -7, -7, -7, -7, 0, -2] : List ℚ) [1, 7] 21
      = [7] := by
    norm_num [selectByPeakDistance, insertionSortBy, insertSorted, getE, List.getD,
      List.range_succ, List.enum, List.enumFrom, List.mapIdx_cons, List.mapIdx_nil]
  rw [hsel]
  norm_num [prominenceAt, promLeftMin, promRightMin, scanMinWhileLE, getE, List.getD]

/-- A 5-frame keypoint sequence whose hip height dips and recovers
(values 63, -18, -18, -18, 54). At 60 fps the smoothing kernel is 9, so
the numpy mode-same smoothed signal has 9 entries and `detect_jumps`
reports a peak at index 7 with landing index 8, both beyond the 5-frame
sequence. -/
def cexJumpKp : List (KFrame ℚ) :=
  [fun _ => (0, 63), fun _ => (0, -18), fun _ => (0, -18), fun _ => (0, -18), fun _ => (0, 54)]

/-- The C6 claim as stated: on sequences of at least 5 frames every jump
event has rounded height at least the threshold, and a landing index at
or after the peak, within one second of it, clamped inside the keypoint
sequence. -/
def claimC6Statement : Prop :=
  ∀ (kp : List (KFrame ℚ)) (fps minProm : ℚ) (m : ℤ), 0 < fps → 5 ≤ kp.length →
    ∀ e ∈ (detectJumps kp fps ((m : ℚ) / 10 ^ 4) minProm).2,
      ((m : ℚ) / 10 ^ 4) ≤ e.jump_height_norm ∧
      e.frame_seq_idx ≤ e.landing_seq_idx ∧
      ((e.landing_seq_idx : ℚ) < (e.frame_seq_idx : ℚ) + fps * 1.0) ∧
      e.landing_seq_idx < kp.length

set_option maxHeartbeats 4000000 in
/-- On the counterexample sequence at 60 fps the jump detector emits
exactly one event, with peak index 7 and landing index 8. -/
theorem detectJumps_cex_pairs :
    ((detectJumps cexJumpKp 60 (((250 : ℤ) : ℚ) / 10 ^ 4) (12 / 1000)).2).map
      (fun e => (e.frame_seq_idx, e.landing_seq_idx)) = [(7, 8)] := by
  have h5 : ¬ (cexJumpKp.length < 5) := by norm_num [cexJumpKp]
  have hhip : cexJumpKp.map hipYOf = [63, -18, -18, -18, 54] := by
    norm_num [cexJumpKp, hipYOf, midpointKF]
  have hker : jumpKernel (60 : ℚ) = 9 := by
    norm_num [jumpKernel, pyIntN, pyInt]
    simp
  have hconv : convSame ([63, -18, -18, -18, 54] : List ℚ) 9 = [3, 1, 7, 7, 7, 7, 7, 0, 2] := by
    norm_num [convSame, getZ, getE, List.range_succ, List.getD]
    simp
    norm_num
  have hinv : (([3, 1, 7, 7, 7, 7, 7, 0, 2] : List ℚ).map (fun v => -v))
      = [-3, -1, -7, -7, -7, -7, -7, 0, -2] := by
    norm_num
  have hdist : max 5 (pyIntN ((60 : ℚ) * 0.35)) = 21 := by
    norm_num [pyIntN, pyInt]
    simp
  have hmed : median ([3, 1, 7, 7, 7, 7, 7, 0, 2] : List ℚ) = 7 := by
    norm_num [median, sortAsc, insertionSortBy, insertSorted, getE, List.getD]
  have hsec : pyIntN ((60 : ℚ) * 1.0) = 60 := by
    norm_num [pyIntN, pyInt]
    simp
  simp only [detectJumps]
  rw [if_neg h5, hhip, hker, hconv, hinv, hdist, findPeaksPD_cex, hmed, hsec]
  norm_num [List.filterMap_cons, getE, List.getD, idxMaxFirst, idxMaxGo]

/-- C6 counterexample: the claim fails as stated. On the 5-frame
sequence `cexJumpKp` at 60 fps the smoothing kernel (9) exceeds the
signal length, numpy mode-same smoothing yields 9 samples, and the
reported event has peak index 7 and landing index 8 - outside the
5-frame keypoint sequence - refuting the `landing_seq_idx < len(kp)`
clamp (the peak index is outside the sequence as well). -/
theorem jump_events_inside_sequence_refuted : ¬ claimC6Statement := by
  intro h
  have hC := h cexJumpKp 60 (12 / 1000) 250 (by norm_num) (by norm_num [cexJumpKp])
  have hpair : ((7 : ℕ), (8 : ℕ)) ∈
      ((detectJumps cexJumpKp 60 (((250 : ℤ) : ℚ) / 10 ^ 4) (12 / 1000)).2).map
        (fun e => (e.frame_seq_idx, e.landing_seq_idx)) := by
    rw [detectJumps_cex_pairs]
    exact List.mem_singleton.mpr rfl
  obtain ⟨e, he, hfe⟩ := List.mem_map.mp hpair
  have h8 : e.landing_seq_idx = 8 := congrArg Prod.snd hfe
  have hlt := (hC e he).2.2.2
  rw [h8] at hlt
  norm_num [cexJumpKp] at hlt

/-- C6 (amended): every jump event returned by `detect_jumps` with a
minimum-height threshold that is a multiple of the rounding precision
`10 ^ (-4)` (the default `0.025 = 250 / 10 ^ 4` is one) has
`jump_height_norm` at least that threshold, and its landing index lies
at or after the peak, strictly within one second after it, and inside
the smoothed signal, whose length is `max(len(kp), kernel_size)` - not
necessarily inside the keypoint sequence, since the numpy mode-same
smoothed signal is longer than the input whenever the kernel exceeds
it. -/
theorem jump_events_bounds {α : Type*} [LinearOrderedField α] [FloorRing α]
    (kp : List (KFrame α)) (fps minProm : α) (m : ℤ) (hfps : 0 < fps) :
    ∀ e ∈ (detectJumps kp fps ((m : α) / 10 ^ 4) minProm).2,
      ((m : α) / 10 ^ 4) ≤ e.jump_height_norm ∧
      e.frame_seq_idx ≤ e.landing_seq_idx ∧
      ((e.landing_seq_idx : α) < (e.frame_seq_idx : α) + fps * 1.0) ∧
      e.landing_seq_idx < max kp.length (jumpKernel fps) := by
  intro e he
  by_cases hlen : kp.length < 5
  · simp [detectJumps, hlen] at he
  · simp only [detectJumps] at he
    rw [if_neg hlen] at he
    obtain ⟨p, hpmem, hbody⟩ := List.mem_filterMap.mp he
    set sm := convSame (List.map hipYOf kp) (jumpKernel fps) with hsm
    have hp1 := mem_findPeaksPD_lt hpmem
    rw [List.length_map] at hp1
    have hp := Nat.lt_of_lt_of_le hp1 (Nat.sub_le _ _)
    have hb := landing_bounds sm fps hfps p hp
    by_cases hguard : median sm - getE sm p < (m : α) / 10 ^ 4
    · rw [if_pos hguard] at hbody
      exact absurd hbody (by simp)
    · rw [if_neg hguard] at hbody
      rw [Option.some.injEq] at hbody
      subst hbody
      refine ⟨pyRound_ge m 4 _ (not_lt.mp hguard), hb.1, hb.2.1, ?_⟩
      exact lt_of_lt_of_eq hb.2.2 (by rw [hsm, length_convSame, List.length_map])

/-- Witness for C6 (amended): the bounds hold for every jump event of a
concrete 5-frame constant sequence at 30 fps. -/
theorem jump_events_bounds_witness :
    (0 : ℚ) < 30 ∧
    ∀ e ∈ (detectJumps (List.replicate 5 (fun _ => ((0 : ℚ), 0)) : List (KFrame ℚ)) 30
        (((250 : ℤ) : ℚ) / 10 ^ 4) 1).2,
      (((250 : ℤ) : ℚ) / 10 ^ 4) ≤ e.jump_height_norm ∧
      e.frame_seq_idx ≤ e.landing_seq_idx ∧
      ((e.landing_seq_idx : ℚ) < (e.frame_seq_idx : ℚ) + 30 * 1.0) ∧
      e.landing_seq_idx <
        max (List.replicate 5 (fun _ => ((0 : ℚ), 0)) : List (KFrame ℚ)).length
          (jumpKernel (30 : ℚ)) :=
  ⟨by norm_num,
   jump_events_bounds (List.replicate 5 (fun _ => ((0 : ℚ), 0)) : List (KFrame ℚ)) 30 1 250
     (by norm_num)⟩

end EventProofs

end TrackerProofs
